import Mathlib

/-!
# SmartFormFiller (content.js, background.js, popup.js)

A shallow embedding of the form filler of the browser extension and the
properties of its field classifier, value resolver, AI fallback and fill loop.

Conventions of the embedding.

* A JavaScript string is a `String`; the string primitives `includes`, `trim`,
  `split`, `join` and `replace` are defined on the character list of the
  string.
* What the platform does and the program does not define is a parameter, the
  `Host`: the method `toLowerCase`, and the value a control holds after an
  assignment to its `value`. Every general statement holds for every host;
  the examples are evaluated on `exampleHost`.
* `undefined`, `null` and `false` are `none`; a value is truthy when it is
  present and, for a string, non-empty.
* The DOM is passed explicitly: a document is the list of its forms, a form is
  the list of the controls `querySelectorAll('input, select, textarea')` finds
  in it, and a control carries the attributes and the label texts the program
  reads. Each control is taken to lie in one form.
* The fields a fill returns carry each control as the write to it left it;
  what the platform does to other controls on a write (checking a radio
  unchecks the others of its group) is not represented.
* An exception that nothing catches is recorded in the state of the fill
  (`uncaught`); the loops end at the step that raises one, and `fillForms`
  then returns no count.
* The network is an oracle from the history of provider calls and the current
  call to the outcome of `fetch` followed by `response.json()`; the calls that
  were made are kept in a log.
-/

namespace SmartFormFiller

/-! ## String primitives -/

/-- The method `s.includes(p)`: `p` occurs in `s` as a contiguous substring. -/
def includes (s p : String) : Bool := decide (p.data <:+: s.data)

/-- The characters `String.prototype.trim` removes: ECMAScript WhiteSpace and
LineTerminator code points. -/
def isWhiteSpace (c : Char) : Bool :=
  let n := c.toNat
  n = 0x09 || n = 0x0A || n = 0x0B || n = 0x0C || n = 0x0D || n = 0x20 || n = 0xA0 ||
  n = 0x1680 || (0x2000 ≤ n && n ≤ 0x200A) || n = 0x2028 || n = 0x2029 || n = 0x202F ||
  n = 0x205F || n = 0x3000 || n = 0xFEFF

/-- The method `s.trim()`. -/
def trim (s : String) : String :=
  ⟨((s.data.dropWhile isWhiteSpace).reverse.dropWhile isWhiteSpace).reverse⟩

/-- The method `s.split(sep)` for a one-character separator. -/
def split (s : String) (sep : Char) : List String :=
  (s.data.splitOn sep).map String.mk

/-- The method `xs.join(sep)`. -/
def join (xs : List String) (sep : String) : String :=
  ⟨List.intercalate sep.data (xs.map String.data)⟩

/-- Removes the first occurrence of `pat` from `s`, if there is one. -/
def removeFirst (pat : List Char) : List Char → List Char
  | [] => []
  | c :: cs => if pat <+: (c :: cs) then (c :: cs).drop pat.length else c :: removeFirst pat cs

/-- The call `s.replace(pat, '')` for a string pattern: the first occurrence is removed. -/
def replaceFirstWithEmpty (s pat : String) : String := ⟨removeFirst pat.data s.data⟩

/-- Truthiness of a possibly absent string. -/
def truthy : Option String → Bool
  | some s => s ≠ ""
  | none => false

/-! ## Data model -/

/-- An `option` element of a select control. -/
structure OptionElement where
  value : String
  textContent : String
deriving DecidableEq, Repr

/-- The outcome of `document.querySelector('label[for="' + id + '"]')` for the
id of a control: the text of the label found, no such label, or the
`SyntaxError` the platform raises when the id makes the selector invalid (an
id holding a double quote or a backslash). -/
inductive LabelQuery where
  | found (textContent : String)
  | missing
  | syntaxError
deriving DecidableEq, Repr

/-- A form control, with what the program reads from it and writes to it.
`labelFor` is the outcome of the query for the `label[for=id]` element,
`closestLabel` the text of the enclosing `label`, `previousLabel` the text of
the previous sibling when that is a `LABEL`; `events` are the events
dispatched on the control, oldest first. -/
structure Element where
  tagName : String
  type : String
  name : String
  id : String
  placeholder : Option String
  value : String
  checked : Bool
  options : List OptionElement
  labelFor : LabelQuery
  closestLabel : Option String
  previousLabel : Option String
  events : List String
deriving DecidableEq, Repr

/-- The platform: `toLowerCase` is `String.prototype.toLowerCase`, and
`storedValue element v` is what `element.value` reads after the assignment
`element.value = v` on a control that accepts it (the platform sanitises the
assigned text by the type of the control). -/
structure Host where
  toLowerCase : String → String
  storedValue : Element → String → String

/-- The field descriptor `detectForms` builds for a control. -/
structure Field where
  element : Element
  type : Option String
  name : Option String
  id : Option String
  placeholder : Option String
  label : Option String
deriving DecidableEq, Repr

/-- The payload of a `fillForms` message: the keys the program reads, each
possibly absent. -/
structure UserData where
  fullName : Option String := none
  email : Option String := none
  phone : Option String := none
  address : Option String := none
  company : Option String := none
  title : Option String := none
  website : Option String := none
  aiProvider : Option String := none
  apiKey : Option String := none
  aiEnabled : Option Bool := none
  aiToggle : Option Bool := none
deriving DecidableEq, Repr

/-! ## Field classification -/

/-- The table `this.fieldMappings`, in declaration order. -/
def fieldMappings : List (String × List String) :=
  [ ("name", ["name", "fullname", "full_name", "full-name", "username", "user_name", "user-name"]),
    ("firstName", ["firstname", "first_name", "first-name", "fname", "given_name", "given-name"]),
    ("lastName", ["lastname", "last_name", "last-name", "lname", "surname", "family_name",
      "family-name"]),
    ("email", ["email", "e_mail", "e-mail", "mail", "email_address", "email-address"]),
    ("phone", ["phone", "telephone", "tel", "mobile", "cell", "phone_number", "phone-number"]),
    ("address", ["address", "street", "address1", "address_1", "address-1", "street_address",
      "street-address"]),
    ("city", ["city", "town", "locality"]),
    ("state", ["state", "province", "region"]),
    ("zip", ["zip", "postal", "postcode", "postal_code", "postal-code", "zipcode", "zip_code",
      "zip-code"]),
    ("country", ["country", "nation"]),
    ("company", ["company", "organization", "employer", "business", "org"]),
    ("title", ["title", "job_title", "job-title", "position", "role"]),
    ("website", ["website", "url", "site", "web", "homepage"]),
    ("message", ["message", "comment", "comments", "description", "note", "notes", "details"]) ]

/-- The list `identifiers` of `identifyField`: name, id, placeholder and label,
lower-cased, the absent and the empty ones dropped. -/
def identifiers (host : Host) (field : Field) : List String :=
  ([field.name, field.id, field.placeholder, field.label].map
    (Option.map host.toLowerCase)).filterMap (fun o => if truthy o then o else none)

/-- The test of one table entry: some identifier includes some pattern. -/
def matchesPatterns (ids patterns : List String) : Bool :=
  ids.any (fun identifier => patterns.any (fun pattern => includes identifier pattern))

/-- The loop of `identifyField` over the entries of a table. -/
def identifyFieldLoop : List (String × List String) → List String → String
  | [], _ => "unknown"
  | (fieldType, patterns) :: rest, ids =>
    if matchesPatterns ids patterns then fieldType else identifyFieldLoop rest ids

/-- The method `identifyField(field)`. -/
def identifyField (host : Host) (field : Field) : String :=
  identifyFieldLoop fieldMappings (identifiers host field)

/-! ## Value resolution -/

/-- The method `getValueForField(fieldType, userData)`: the object `mappings`
is looked up at `fieldType`, and an absent or empty entry gives `''`. The
types `identifyField` returns are keys of `mappings` or name nothing in it. -/
def getValueForField (fieldType : String) (userData : UserData) : String :=
  let mappings : List (String × Option String) :=
    [ ("name", userData.fullName),
      ("firstName", userData.fullName.bind (fun s => (split s ' ').head?)),
      ("lastName", userData.fullName.map (fun s => join ((split s ' ').drop 1) " ")),
      ("email", userData.email),
      ("phone", userData.phone),
      ("address", userData.address),
      ("company", userData.company),
      ("title", userData.title),
      ("website", userData.website) ]
  ((mappings.lookup fieldType).join).getD ""

/-! ## Form detection -/

/-- The method `getFieldLabel(element)`; the query for the label is made when
the control has an id, and its `SyntaxError` is not caught. -/
def getFieldLabel (element : Element) : Except String String :=
  let fallback : String :=
    match element.closestLabel with
    | some text => trim (replaceFirstWithEmpty text element.value)
    | none =>
      match element.previousLabel with
      | some text => trim text
      | none =>
        if truthy element.placeholder then element.placeholder.getD ""
        else if element.name ≠ "" then element.name
        else element.id
  if element.id ≠ "" then
    match element.labelFor with
    | .syntaxError => .error "SyntaxError"
    | .found text => .ok (trim text)
    | .missing => .ok fallback
  else .ok fallback

/-- The object `detectForms` pushes for a control: the control, its type,
name, id and placeholder, and its label. -/
def describe (input : Element) (label : String) : Field :=
  { element := input, type := some input.type, name := some input.name, id := some input.id,
    placeholder := input.placeholder, label := some label }

/-- The descriptors of the controls of one form, in order: submit, button and
hidden controls are left out, and an exception of `getFieldLabel` ends the
scan. -/
def detectFields : List Element → Except String (List Field)
  | [] => .ok []
  | input :: rest =>
    if input.type ≠ "submit" ∧ input.type ≠ "button" ∧ input.type ≠ "hidden" then
      match getFieldLabel input with
      | .error e => .error e
      | .ok label =>
        match detectFields rest with
        | .error e => .error e
        | .ok fields => .ok (describe input label :: fields)
    else detectFields rest

/-- An entry of the result of `detectForms`. -/
structure FormData where
  fields : List Field
  index : Nat
deriving DecidableEq, Repr

/-- The loop of `detectForms` over the forms, `index` being the index of the
first of them. -/
def detectFormsFrom : Nat → List (List Element) → Except String (List FormData)
  | _, [] => .ok []
  | index, form :: rest =>
    match detectFields form with
    | .error e => .error e
    | .ok fields =>
      match detectFormsFrom (index + 1) rest with
      | .error e => .error e
      | .ok forms =>
        if fields.length > 0 then .ok ({ fields := fields, index := index } :: forms)
        else .ok forms

/-- The method `detectForms()`: the forms of the document that have a field. -/
def detectForms (document : List (List Element)) : Except String (List FormData) :=
  detectFormsFrom 0 document

/-! ## AI fallback -/

/-- A parsed JSON value, as `response.json()` gives it; the members of an
object are its properties. -/
inductive Json where
  | null
  | bool (b : Bool)
  | num (n : Int)
  | str (s : String)
  | arr (items : List Json)
  | obj (members : List (String × Json))

/-- The access `v[key]` for a value that is neither `null` nor `undefined` and
one of the keys `choices`, `message`, `content`, `text`: only an object can
have it. -/
def getProp (key : String) : Json → Option Json
  | .obj members => members.lookup key
  | _ => none

/-- The access `v[0]` for a value that is neither `null` nor `undefined`. -/
def getIndex0 : Json → Option Json
  | .arr items => items.head?
  | .obj members => members.lookup "0"
  | .str s => s.data.head?.map (fun c => .str ⟨[c]⟩)
  | _ => none

/-- Optional chaining `v?.…`: `undefined` when `v` is `undefined` or `null`. -/
def optChain (v : Option Json) (f : Json → Option Json) : Option Json :=
  match v with
  | none => none
  | some .null => none
  | some x => f x

/-- The call `x?.trim()` followed by `value === 'SKIP' ? null : value`. A value
that is present and not a string has no `trim` method, which is a `TypeError`. -/
def skipOrValue : Option Json → Except String (Option String)
  | none => .ok none
  | some .null => .ok none
  | some (.str s) => .ok (if trim s = "SKIP" then none else some (trim s))
  | some _ => .error "TypeError: trim is not a function"

/-- The part of `queryOpenAI` after `response.json()`. -/
def openAIValue : Json → Except String (Option String)
  | .null => .error "TypeError: cannot read properties of null"
  | data =>
    skipOrValue (optChain (optChain (optChain (getProp "choices" data) getIndex0)
      (getProp "message")) (getProp "content"))

/-- The part of `queryAnthropic` after `response.json()`. -/
def anthropicValue : Json → Except String (Option String)
  | .null => .error "TypeError: cannot read properties of null"
  | data =>
    skipOrValue (optChain (optChain (getProp "content" data) getIndex0) (getProp "text"))

/-- A request sent with `fetch`. -/
structure Request where
  url : String
  apiKey : String
  model : String
  prompt : String
deriving DecidableEq, Repr

/-- The network: from the requests sent so far and the current request to the
outcome of `fetch` and `response.json()`, an error (network or parse) or the
parsed body. -/
abbrev Network := List Request → Request → Except String Json

/-- A call of the function `getAIValue` selects from `aiProviders`. -/
structure Invocation where
  provider : String
  prompt : String
  apiKey : String
deriving DecidableEq, Repr

/-- What a fill has done so far: the count, the fields filled and their
values, the functions of `aiProviders` called, the requests sent, the errors
logged, and the exceptions that nothing caught. -/
structure FillState where
  filledCount : Nat := 0
  filled : List (Field × String) := []
  invoked : List Invocation := []
  requests : List Request := []
  consoleErrors : List String := []
  uncaught : List String := []
deriving DecidableEq, Repr

/-- The request `queryOpenAI` sends. -/
def openAIRequest (prompt apiKey : String) : Request :=
  { url := "https://api.openai.com/v1/chat/completions", apiKey := apiKey,
    model := "gpt-3.5-turbo", prompt := prompt }

/-- The request `queryAnthropic` sends. -/
def anthropicRequest (prompt apiKey : String) : Request :=
  { url := "https://api.anthropic.com/v1/messages", apiKey := apiKey,
    model := "claude-3-haiku-20240307", prompt := prompt }

/-- A function called as `aiFunction(prompt, apiKey)`: its outcome, a value or
an exception, and the requests sent after it. -/
abbrev Handler :=
  Network → List Request → String → String → Except String (Option String) × List Request

/-- The method `queryOpenAI(prompt, apiKey)`. -/
def queryOpenAI : Handler := fun net requests prompt apiKey =>
  let request := openAIRequest prompt apiKey
  ((net requests request).bind openAIValue, requests ++ [request])

/-- The method `queryAnthropic(prompt, apiKey)`. -/
def queryAnthropic : Handler := fun net requests prompt apiKey =>
  let request := anthropicRequest prompt apiKey
  ((net requests request).bind anthropicValue, requests ++ [request])

/-- The method `queryLocalAI(prompt, apiKey)`: nothing is sent. -/
def queryLocalAI : Handler := fun _net requests _prompt _apiKey =>
  (.ok none, requests)

/-- The table `this.aiProviders`: its own properties. -/
def aiProviders : List (String × Handler) :=
  [("openai", queryOpenAI), ("anthropic", queryAnthropic), ("local", queryLocalAI)]

/-- What `this.aiProviders[name]` can be when it is truthy: a function, or an
object that is no function. -/
inductive Member where
  | function (call : Handler)
  | object

/-- A built-in that starts with `ToObject(this)`: called as a plain function it
raises a `TypeError`. -/
def needsThis : Handler := fun _net requests _prompt _apiKey =>
  (.error "TypeError: Cannot convert undefined or null to object", requests)

/-- The properties the object `this.aiProviders` inherits from
`Object.prototype`, with what each does when called as
`aiFunction(prompt, apiKey)`, the receiver being `undefined`: `Object(prompt)`
is the prompt as a string object, `toString` gives `[object Undefined]`,
`isPrototypeOf` of a string is `false`, the others raise a `TypeError`;
`__proto__` is the prototype object, which is no function. -/
def inheritedMembers : List (String × Member) :=
  [ ("constructor", .function (fun _net requests prompt _apiKey => (.ok (some prompt), requests))),
    ("toString",
      .function (fun _net requests _prompt _apiKey => (.ok (some "[object Undefined]"), requests))),
    ("isPrototypeOf", .function (fun _net requests _prompt _apiKey => (.ok none, requests))),
    ("toLocaleString", .function needsThis),
    ("valueOf", .function needsThis),
    ("hasOwnProperty", .function needsThis),
    ("propertyIsEnumerable", .function needsThis),
    ("__defineGetter__", .function needsThis),
    ("__defineSetter__", .function needsThis),
    ("__lookupGetter__", .function needsThis),
    ("__lookupSetter__", .function needsThis),
    ("__proto__", .object) ]

/-- The access `this.aiProviders[name]`: an own property, else an inherited
one, else `undefined`. -/
def aiProvidersMember (name : String) : Option Member :=
  match aiProviders.lookup name with
  | some handler => some (.function handler)
  | none => inheritedMembers.lookup name

/-- The expression `x || d` for a possibly absent string. -/
def orDefault (x : Option String) (d : String) : String :=
  if truthy x then x.getD d else d

/-- The method `buildAIPrompt(field, userData)`. -/
def buildAIPrompt (field : Field) (userData : UserData) : String :=
  "\nUser Info:\n- Name: " ++ orDefault userData.fullName "Not provided" ++
  "\n- Email: " ++ orDefault userData.email "Not provided" ++
  "\n- Phone: " ++ orDefault userData.phone "Not provided" ++
  "\n- Address: " ++ orDefault userData.address "Not provided" ++
  "\n\nForm field details:\n- Label: " ++ field.label.getD "undefined" ++
  "\n- Placeholder: " ++ orDefault field.placeholder "None" ++
  "\n- Name: " ++ orDefault field.name "None" ++
  "\n- Type: " ++ field.type.getD "undefined" ++
  "\n\nPlease provide an appropriate value for this form field. Respond with only the value, no explanation. If you cannot determine an appropriate value, respond with \"SKIP\"."

/-- The method `getAIValue(field, userData)`. An exception of the call,
including the `TypeError` of calling what is no function, is caught and
logged. -/
def getAIValue (net : Network) (field : Field) (userData : UserData) (st : FillState) :
    Option String × FillState :=
  if !truthy userData.apiKey || !truthy userData.aiProvider then (none, st)
  else
    let prompt := buildAIPrompt field userData
    let apiKey := userData.apiKey.getD ""
    let provider := userData.aiProvider.getD ""
    match aiProvidersMember provider with
    | some (.function aiFunction) =>
      let st1 := { st with invoked := st.invoked ++ [Invocation.mk provider prompt apiKey] }
      match aiFunction net st1.requests prompt apiKey with
      | (.ok value, requests) => (value, { st1 with requests := requests })
      | (.error error, requests) =>
        (none, { st1 with requests := requests,
                          consoleErrors := st1.consoleErrors ++ ["AI query failed: " ++ error] })
    | some .object =>
      (none, { st with consoleErrors := st.consoleErrors ++
        ["AI query failed: TypeError: aiFunction is not a function"] })
    | none => (none, st)

/-! ## Filling -/

/-- The loop of `fillField` over the options of a select control; `current`
is the value of the control. -/
def selectLoop (host : Host) (value : String) : List OptionElement → String → String
  | [], current => current
  | option :: rest, current =>
    if includes (host.toLowerCase option.textContent) (host.toLowerCase value) ||
       includes (host.toLowerCase option.value) (host.toLowerCase value) then option.value
    else selectLoop host value rest current

/-- The two `dispatchEvent` calls that end `fillField`. -/
def dispatchEvents (element : Element) : Element :=
  { element with events := element.events ++ ["input", "change"] }

/-- The method `fillField(element, value)`: the control after the write, or the
`InvalidStateError` the platform raises for the assignment of a non-empty
text to the `value` of a file control, before any event is dispatched. -/
def fillField (host : Host) (element : Element) (value : String) : Except String Element :=
  if element.tagName = "SELECT" then
    .ok (dispatchEvents
      { element with value := selectLoop host value element.options element.value })
  else if element.type = "checkbox" || element.type = "radio" then
    .ok (dispatchEvents
      { element with checked := ["true", "yes", "1", "on"].contains (host.toLowerCase value) })
  else if element.type = "file" && value ≠ "" then
    .error "InvalidStateError"
  else
    .ok (dispatchEvents { element with value := host.storedValue element value })

/-- The body of the field loop of `fillForms` for one field: the field with
its control as the write left it, and the state. -/
def fillOne (host : Host) (net : Network) (userData : UserData) (field : Field)
    (st : FillState) : Field × FillState :=
  let fieldType := identifyField host field
  let value := getValueForField fieldType userData
  let step : Option String × FillState :=
    if value = "" && fieldType = "unknown" && userData.aiEnabled = some true then
      getAIValue net field userData st
    else (some value, st)
  if truthy step.1 then
    let v := step.1.getD ""
    match fillField host field.element v with
    | .ok written =>
      ({ field with element := written },
       { step.2 with filledCount := step.2.filledCount + 1,
                     filled := step.2.filled ++ [(field, v)] })
    | .error e => (field, { step.2 with uncaught := step.2.uncaught ++ [e] })
  else (field, step.2)

/-- The loop of `fillForms` over the fields of one form; it goes on while the
step raised nothing. -/
def fillFields (host : Host) (net : Network) (userData : UserData) :
    List Field → FillState → List Field × FillState
  | [], st => ([], st)
  | field :: rest, st =>
    let r := fillOne host net userData field st
    if r.2.uncaught = st.uncaught then
      let rs := fillFields host net userData rest r.2
      (r.1 :: rs.1, rs.2)
    else (r.1 :: rest, r.2)

/-- The loop of `fillForms` over the detected forms; it goes on while the form
raised nothing. -/
def fillFormsLoop (host : Host) (net : Network) (userData : UserData) :
    List FormData → FillState → List FormData × FillState
  | [], st => ([], st)
  | formData :: rest, st =>
    let r := fillFields host net userData formData.fields st
    if r.2.uncaught = st.uncaught then
      let rs := fillFormsLoop host net userData rest r.2
      ({ formData with fields := r.1 } :: rs.1, rs.2)
    else ({ formData with fields := r.1 } :: rest, r.2)

/-- The method `fillForms(userData)` on a document: every detected field with
its control as the write to it left it, and the final state. When `uncaught`
is empty `filledCount` is the value returned; otherwise the exception leaves
`fillForms`. -/
def fillForms (host : Host) (net : Network) (userData : UserData)
    (document : List (List Element)) : List FormData × FillState :=
  match detectForms document with
  | .error e => ([], { uncaught := [e] })
  | .ok forms => fillFormsLoop host net userData forms {}

/-- The response to a `fillForms` message. -/
inductive Response where
  | success (count : Nat)
  | failure (error : String)
deriving DecidableEq, Repr

/-- The response the message listener sends for `fillForms`: the count, or
from the `catch` the failure with the exception. -/
def fillFormsResponse (host : Host) (net : Network) (userData : UserData)
    (document : List (List Element)) : Response :=
  match (fillForms host net userData document).2.uncaught with
  | [] => .success (fillForms host net userData document).2.filledCount
  | e :: _ => .failure e

/-! ## Triggers -/

/-- The contents of `chrome.storage.sync`: the keys that may be stored. -/
abbrev Storage := UserData

/-- The call `chrome.storage.sync.get(['fullName', 'email', 'phone', 'address',
'aiProvider', 'apiKey', 'aiToggle'], …)`: the stored values of these keys. -/
def storageGet (storage : Storage) : UserData :=
  { fullName := storage.fullName, email := storage.email, phone := storage.phone,
    address := storage.address, aiProvider := storage.aiProvider, apiKey := storage.apiKey,
    aiToggle := storage.aiToggle }

/-- The `data` of the message the context menu listener sends. -/
def contextMenuPayload (storage : Storage) : UserData := storageGet storage

/-- The `data` of the message the keyboard shortcut listener sends. -/
def commandPayload (storage : Storage) : UserData := storageGet storage

/-- The controls of the popup that `getFormData` reads. -/
structure Popup where
  fullName : String
  email : String
  phone : String
  address : String
  aiProvider : String
  apiKey : String
  aiToggle : Bool
deriving DecidableEq, Repr

/-- The function `getFormData()` of popup.js. -/
def getFormData (popup : Popup) : UserData :=
  { fullName := some popup.fullName, email := some popup.email, phone := some popup.phone,
    address := some popup.address, aiProvider := some popup.aiProvider,
    apiKey := some popup.apiKey, aiEnabled := some popup.aiToggle }

/-! ## Predicates and examples used in the statements -/

/-- Some pattern of the list occurs as a substring of one of the lower-cased
non-empty identifiers (name, id, placeholder, label) of the field. -/
def HasMatch (host : Host) (field : Field) (patterns : List String) : Prop :=
  ∃ pattern ∈ patterns, ∃ o ∈ [field.name, field.id, field.placeholder, field.label],
    ∃ s ∈ o, host.toLowerCase s ≠ "" ∧ pattern.data <:+: (host.toLowerCase s).data

instance (host : Host) (field : Field) (patterns : List String) :
    Decidable (HasMatch host field patterns) := by
  unfold HasMatch; infer_instance

/-- The whitespace-delimited tokens of a string: its maximal runs of characters
that are not white space. -/
def whitespaceTokens (s : String) : List String :=
  ((s.data.splitOnP isWhiteSpace).filter (fun t => t ≠ [])).map String.mk

/-- Lower-casing of the ASCII letters, which is what `toLowerCase` does on an
ASCII string. -/
def asciiLowerCase (s : String) : String := ⟨s.data.map Char.toLower⟩

/-- The platform on the inputs of the examples, which are ASCII texts on one
line written to text inputs: there `toLowerCase` lowers the ASCII letters and
a control stores the text as given. -/
def exampleHost : Host :=
  { toLowerCase := asciiLowerCase, storedValue := fun _ value => value }

/-- The platform of the examples with a `toLowerCase` that also lowers `É`, as
the built-in does. -/
def accentHost : Host :=
  { toLowerCase := fun s => ⟨s.data.map (fun c => if c = 'É' then 'é' else c.toLower)⟩,
    storedValue := fun _ value => value }

/-- An input of the given type and name, with nothing else set. -/
def inputOf (type name : String) : Element :=
  { tagName := "INPUT", type := type, name := name, id := "", placeholder := some "",
    value := "", checked := false, options := [], labelFor := .missing, closestLabel := none,
    previousLabel := none, events := [] }

/-- A text input with the given name and nothing else set. -/
def textInput (name : String) : Element := inputOf "text" name

/-- The descriptor `detectForms` builds for an input that has only a name: the
name is its label. -/
def fieldOf (input : Element) : Field := describe input input.name

/-- An OpenAI response body with the given text as its first choice. -/
def openAIBody (text : String) : Json :=
  .obj [("choices", .arr [.obj [("message", .obj [("content", .str text)])]])]

/-- An Anthropic response body with the given text as its first block. -/
def anthropicBody (text : String) : Json :=
  .obj [("content", .arr [.obj [("text", .str text)]])]

/-- A network that answers every request with the given body. -/
def replyWith (body : Json) : Network := fun _ _ => .ok body

/-- A network on which every request fails. -/
def failingNetwork : Network := fun _ _ => .error "TypeError: Failed to fetch"

/-- The detected fields of a document, in document order; none when the scan
raises an exception. -/
def allFields (document : List (List Element)) : List Field :=
  match detectForms document with
  | .ok forms => (forms.map (fun formData => formData.fields)).flatten
  | .error _ => []

/-- The scan of the control raises nothing: the scan leaves the control out,
or the control has no id, or the query for its label is valid. -/
def LabelQueryValid (input : Element) : Prop :=
  input.type = "submit" ∨ input.type = "button" ∨ input.type = "hidden" ∨
    input.id = "" ∨ input.labelFor ≠ .syntaxError

instance (input : Element) : Decidable (LabelQueryValid input) := by
  unfold LabelQueryValid; infer_instance

/-- The platform accepts the write of a non-empty text to the control: it is a
select, a checkbox or a radio, or it is no file control. -/
def AcceptsValue (element : Element) : Prop :=
  element.tagName = "SELECT" ∨ element.type = "checkbox" ∨ element.type = "radio" ∨
    element.type ≠ "file"

instance (element : Element) : Decidable (AcceptsValue element) := by
  unfold AcceptsValue; infer_instance

/-- The fill a field gets from the profile alone: the value its classified
type resolves to, when there is one. -/
def profileFill (host : Host) (userData : UserData) (field : Field) : Option (Field × String) :=
  if getValueForField (identifyField host field) userData ≠ "" then
    some (field, getValueForField (identifyField host field) userData)
  else none

/-- The names at which `this.aiProviders[name]` is a function: the three
handlers and the functions every object inherits. -/
def callableMembers : List String :=
  ["openai", "anthropic", "local", "constructor", "toString", "isPrototypeOf", "toLocaleString",
   "valueOf", "hasOwnProperty", "propertyIsEnumerable", "__defineGetter__", "__defineSetter__",
   "__lookupGetter__", "__lookupSetter__"]

/-- The call of a function of `aiProviders` a field gets during a fill, if
any. -/
def aiInvocation (host : Host) (userData : UserData) (field : Field) : Option Invocation :=
  if identifyField host field = "unknown" ∧
      getValueForField (identifyField host field) userData = "" ∧
      userData.aiEnabled = some true ∧ truthy userData.apiKey = true ∧
      truthy userData.aiProvider = true ∧
      userData.aiProvider.getD "" ∈ callableMembers then
    some ⟨userData.aiProvider.getD "", buildAIPrompt field userData, userData.apiKey.getD ""⟩
  else none

/-- The string `target` occurs in `text` as a case-insensitive substring. -/
def containsIgnoreCase (host : Host) (text target : String) : Prop :=
  (host.toLowerCase target).data <:+: (host.toLowerCase text).data

instance (host : Host) (text target : String) : Decidable (containsIgnoreCase host text target) := by
  unfold containsIgnoreCase; infer_instance

/-- The visible text or the underlying value of the option contains the target
as a case-insensitive substring. -/
def OptionMatches (host : Host) (target : String) (option : OptionElement) : Prop :=
  containsIgnoreCase host option.textContent target ∨ containsIgnoreCase host option.value target

instance (host : Host) (target : String) (option : OptionElement) :
    Decidable (OptionMatches host target option) := by
  unfold OptionMatches; infer_instance

/-- A select control with the given options and current value. -/
def selectOf (options : List OptionElement) (value : String) : Element :=
  { tagName := "SELECT", type := "select-one", name := "country", id := "", placeholder := none,
    value := value, checked := false, options := options, labelFor := .missing,
    closestLabel := none, previousLabel := none, events := [] }

/-- An unchecked checkbox. -/
def checkbox : Element :=
  { tagName := "INPUT", type := "checkbox", name := "subscribe", id := "", placeholder := some "",
    value := "on", checked := false, options := [], labelFor := .missing, closestLabel := none,
    previousLabel := none, events := [] }

/-! ## Lemmas on the classifier -/

theorem mem_identifiers (host : Host) (field : Field) (x : String) :
    x ∈ identifiers host field ↔
      ∃ o ∈ [field.name, field.id, field.placeholder, field.label],
        ∃ s ∈ o, host.toLowerCase s ≠ "" ∧ x = host.toLowerCase s := by
  unfold identifiers
  rw [List.mem_filterMap]
  constructor
  · rintro ⟨o, ho, hx⟩
    rw [List.mem_map] at ho
    obtain ⟨o', ho', rfl⟩ := ho
    cases o' with
    | none => simp [truthy] at hx
    | some s =>
      by_cases ht : truthy (Option.map host.toLowerCase (some s)) = true
      · rw [if_pos ht] at hx
        refine ⟨some s, ho', s, rfl, ?_, ?_⟩
        · simpa [truthy] using ht
        · simpa using hx.symm
      · rw [if_neg ht] at hx
        cases hx
  · rintro ⟨o, ho, s, hs, hne, rfl⟩
    cases hs
    refine ⟨some (host.toLowerCase s), List.mem_map.2 ⟨some s, ho, rfl⟩, ?_⟩
    have : truthy (some (host.toLowerCase s)) = true := by
      simp only [truthy, decide_eq_true_eq]
      exact hne
    rw [if_pos this]

theorem matchesPatterns_iff (host : Host) (field : Field) (patterns : List String) :
    matchesPatterns (identifiers host field) patterns = true ↔ HasMatch host field patterns := by
  unfold matchesPatterns HasMatch
  simp only [List.any_eq_true, includes, decide_eq_true_eq]
  constructor
  · rintro ⟨x, hx, p, hp, hinf⟩
    obtain ⟨o, ho, s, hs, hne, rfl⟩ := (mem_identifiers host field x).1 hx
    exact ⟨p, hp, o, ho, s, hs, hne, hinf⟩
  · rintro ⟨p, hp, o, ho, s, hs, hne, hinf⟩
    exact ⟨host.toLowerCase s, (mem_identifiers host field _).2 ⟨o, ho, s, hs, hne, rfl⟩, p, hp, hinf⟩

theorem identifyFieldLoop_first (ids : List String) (pre : List (String × List String))
    (entry : String × List String) (post : List (String × List String))
    (hentry : matchesPatterns ids entry.2 = true)
    (hpre : ∀ e ∈ pre, matchesPatterns ids e.2 = false) :
    identifyFieldLoop (pre ++ entry :: post) ids = entry.1 := by
  induction pre with
  | nil =>
    obtain ⟨k, ps⟩ := entry
    simp only [List.nil_append, identifyFieldLoop]
    rw [if_pos hentry]
  | cons e pre ih =>
    obtain ⟨k, ps⟩ := e
    have h0 : matchesPatterns ids ps = false := hpre (k, ps) (List.mem_cons_self _ _)
    simp only [List.cons_append, identifyFieldLoop, h0]
    exact ih (fun e he => hpre e (List.mem_cons_of_mem _ he))

theorem identifyFieldLoop_cases (ids : List String) (table : List (String × List String)) :
    (identifyFieldLoop table ids = "unknown" ∧ ∀ e ∈ table, matchesPatterns ids e.2 = false) ∨
    ∃ pre entry post, table = pre ++ entry :: post ∧ matchesPatterns ids entry.2 = true ∧
      (∀ e ∈ pre, matchesPatterns ids e.2 = false) ∧ identifyFieldLoop table ids = entry.1 := by
  induction table with
  | nil => exact Or.inl ⟨rfl, by simp⟩
  | cons e table ih =>
    obtain ⟨k, ps⟩ := e
    by_cases h : matchesPatterns ids ps = true
    · refine Or.inr ⟨[], (k, ps), table, rfl, h, by simp, ?_⟩
      simp only [identifyFieldLoop]
      rw [if_pos h]
    · have h0 : matchesPatterns ids ps = false := by simpa using h
      have hstep : identifyFieldLoop ((k, ps) :: table) ids = identifyFieldLoop table ids := by
        simp only [identifyFieldLoop, h0]
        rfl
      rcases ih with ⟨hu, hall⟩ | ⟨pre, entry, post, rfl, hm, hpre, hres⟩
      · refine Or.inl ⟨hstep.trans hu, ?_⟩
        intro e he
        rcases List.mem_cons.1 he with rfl | he
        · exact h0
        · exact hall e he
      · refine Or.inr ⟨(k, ps) :: pre, entry, post, rfl, hm, ?_, hstep.trans hres⟩
        intro e he
        rcases List.mem_cons.1 he with rfl | he
        · exact h0
        · exact hpre e he

theorem identifyFieldLoop_mem_upto (ids : List String) (pre : List (String × List String))
    (entry : String × List String) (post : List (String × List String))
    (hentry : matchesPatterns ids entry.2 = true) :
    identifyFieldLoop (pre ++ entry :: post) ids ∈ (pre ++ [entry]).map Prod.fst := by
  induction pre with
  | nil =>
    obtain ⟨k, ps⟩ := entry
    simp only [List.nil_append, identifyFieldLoop]
    rw [if_pos hentry]
    simp
  | cons e pre ih =>
    obtain ⟨k, ps⟩ := e
    simp only [List.cons_append, identifyFieldLoop, List.map_cons]
    split
    · exact List.mem_cons_self _ _
    · exact List.mem_cons_of_mem _ ih

theorem fieldMappings_keys :
    fieldMappings.map Prod.fst =
      ["name", "firstName", "lastName", "email", "phone", "address", "city", "state", "zip",
       "country", "company", "title", "website", "message"] := by
  decide

theorem fieldMappings_keys_nodup : (fieldMappings.map Prod.fst).Nodup := by
  rw [fieldMappings_keys]; decide

theorem unknown_not_key : ∀ e ∈ fieldMappings, e.1 ≠ "unknown" := by
  decide

/-- C1. `identifyField` returns the first type, in the declaration order name,
firstName, lastName, email, phone, address, city, state, zip, country, company,
title, website, message, one of whose patterns occurs in a lower-cased
non-empty identifier of the field, and `'unknown'` exactly when no type has
such a pattern; of two matching types the later one is never returned, and a
field matching the patterns of one type only gets that type. -/
theorem identifyField_first_matching_type (host : Host) (field : Field) :
    fieldMappings.map Prod.fst =
      ["name", "firstName", "lastName", "email", "phone", "address", "city", "state", "zip",
       "country", "company", "title", "website", "message"] ∧
    (∀ pre entry post, fieldMappings = pre ++ entry :: post → HasMatch host field entry.2 →
      (∀ e ∈ pre, ¬ HasMatch host field e.2) → identifyField host field = entry.1) ∧
    (identifyField host field = "unknown" ↔ ∀ e ∈ fieldMappings, ¬ HasMatch host field e.2) ∧
    (∀ pre earlier mid later post, fieldMappings = pre ++ earlier :: (mid ++ later :: post) →
      HasMatch host field earlier.2 → HasMatch host field later.2 →
      identifyField host field ≠ later.1 ∧
      ((∀ e ∈ pre, ¬ HasMatch host field e.2) → identifyField host field = earlier.1)) ∧
    (∀ entry ∈ fieldMappings, HasMatch host field entry.2 →
      (∀ e ∈ fieldMappings, e ≠ entry → ¬ HasMatch host field e.2) →
      identifyField host field = entry.1) := by
  have hfirst : ∀ pre entry post, fieldMappings = pre ++ entry :: post →
      HasMatch host field entry.2 → (∀ e ∈ pre, ¬ HasMatch host field e.2) →
      identifyField host field = entry.1 := by
    intro pre entry post hdec hm hpre
    unfold identifyField
    rw [hdec]
    apply identifyFieldLoop_first
    · exact (matchesPatterns_iff host field _).2 hm
    · intro e he
      have := hpre e he
      rw [← matchesPatterns_iff] at this
      simpa using this
  refine ⟨fieldMappings_keys, hfirst, ?_, ?_, ?_⟩
  · constructor
    · intro hu e he hm
      rcases identifyFieldLoop_cases (identifiers host field) fieldMappings with
        ⟨_, hall⟩ | ⟨pre, entry, post, hdec, _, _, hres⟩
      · have := hall e he
        rw [(matchesPatterns_iff host field _).2 hm] at this
        cases this
      · have hmem : entry ∈ fieldMappings := by rw [hdec]; simp
        exact unknown_not_key entry hmem (hres.symm.trans hu)
    · intro hall
      rcases identifyFieldLoop_cases (identifiers host field) fieldMappings with
        ⟨hu, _⟩ | ⟨pre, entry, post, hdec, hm, _, _⟩
      · exact hu
      · have hmem : entry ∈ fieldMappings := by rw [hdec]; simp
        exact absurd ((matchesPatterns_iff host field _).1 hm) (hall entry hmem)
  · intro pre earlier mid later post hdec hme hml
    refine ⟨?_, fun hpre => hfirst pre earlier _ hdec hme hpre⟩
    intro hres
    have hin : identifyField host field ∈ (pre ++ [earlier]).map Prod.fst := by
      unfold identifyField
      rw [hdec]
      exact identifyFieldLoop_mem_upto _ pre earlier _ ((matchesPatterns_iff host field _).2 hme)
    have hnd := fieldMappings_keys_nodup
    rw [hdec, ← List.cons_append, ← List.append_assoc, List.map_append] at hnd
    have hdisj := (List.nodup_append.1 hnd).2.2
    have hlater : later.1 ∈ (later :: post).map Prod.fst := by simp
    rw [hres] at hin
    refine List.disjoint_left.1 hdisj ?_ hlater
    rw [List.map_append] at hin ⊢
    rcases List.mem_append.1 hin with h | h
    · exact List.mem_append_left _ h
    · exact List.mem_append_right _ (by simp at h; simp [h])
  · intro entry hmem hm hothers
    obtain ⟨pre, post, hdec⟩ := List.append_of_mem hmem
    refine hfirst pre entry post hdec hm ?_
    intro e he
    apply hothers e (by rw [hdec]; simp [he])
    rintro rfl
    have hnd := fieldMappings_keys_nodup
    rw [hdec] at hnd
    simp only [List.map_append, List.map_cons] at hnd
    have := (List.nodup_append.1 hnd).2.2
    exact List.disjoint_left.1 this (List.mem_map_of_mem _ he) (List.mem_cons_self _ _)

/-- C1 at three text inputs: `user_email` is an email field, `Email-Address`
matches email and address and gets the earlier type email, `q` is unknown. -/
theorem identifyField_first_matching_type_witness :
    identifyField exampleHost (fieldOf (textInput "user_email")) = "email" ∧
    identifyField exampleHost (fieldOf (textInput "Email-Address")) = "email" ∧
    identifyField exampleHost (fieldOf (textInput "q")) = "unknown" :=
  ⟨(identifyField_first_matching_type exampleHost _).2.1 (fieldMappings.take 3)
      ("email", ["email", "e_mail", "e-mail", "mail", "email_address", "email-address"])
      (fieldMappings.drop 4) (by decide) (by decide) (by decide),
   ((identifyField_first_matching_type exampleHost _).2.2.2.1 (fieldMappings.take 3)
      ("email", ["email", "e_mail", "e-mail", "mail", "email_address", "email-address"])
      ((fieldMappings.drop 4).take 1)
      ("address", ["address", "street", "address1", "address_1", "address-1", "street_address",
        "street-address"])
      (fieldMappings.drop 6) (by decide) (by decide) (by decide)).2 (by decide),
   ((identifyField_first_matching_type exampleHost _).2.2.1).2 (by decide)⟩

theorem hasMatch_name_of_sub (host : Host) (field : Field) (patterns : List String)
    (hsub : ∀ p ∈ patterns, includes p "name" = true) (hm : HasMatch host field patterns) :
    HasMatch host field ["name", "fullname", "full_name", "full-name", "username", "user_name",
      "user-name"] := by
  obtain ⟨p, hp, o, ho, s, hs, hne, hinf⟩ := hm
  have h1 := hsub p hp
  simp only [includes, decide_eq_true_eq] at h1
  exact ⟨"name", by simp, o, ho, s, hs, hne, h1.trans hinf⟩

theorem identifyField_name_of_hasMatch (host : Host) (field : Field)
    (hm : HasMatch host field ["name", "fullname", "full_name", "full-name", "username", "user_name",
      "user-name"]) : identifyField host field = "name" :=
  identifyFieldLoop_first (identifiers host field) [] ("name", _) (fieldMappings.drop 1)
    ((matchesPatterns_iff host field _).2 hm) (by simp)

theorem identifyField_key_or_unknown (host : Host) (field : Field) :
    identifyField host field = "unknown" ∨
    ∃ entry ∈ fieldMappings, identifyField host field = entry.1 ∧ HasMatch host field entry.2 := by
  rcases identifyFieldLoop_cases (identifiers host field) fieldMappings with
    ⟨hu, _⟩ | ⟨pre, entry, post, hdec, hm, _, hres⟩
  · exact Or.inl hu
  · exact Or.inr ⟨entry, by rw [hdec]; simp, hres, (matchesPatterns_iff host field _).1 hm⟩

theorem name_in_sub_patterns :
    ∀ e ∈ fieldMappings, e.1 = "firstName" ∨ e.1 = "lastName" →
      ∀ p ∈ e.2, includes p "name" = true := by
  decide

/-- C9. `identifyField` never returns `'firstName'` or `'lastName'`: each of
their patterns contains `'name'`, a pattern of the type `name` declared first,
so a field matching one of them is classified as `'name'`; the value
`fillForms` resolves for a field is therefore one of the directly mapped
profile values or the empty string. -/
theorem identifyField_never_firstName_lastName (host : Host) (field : Field) :
    (∀ e ∈ fieldMappings, e.1 = "firstName" ∨ e.1 = "lastName" →
      ∀ p ∈ e.2, includes p "name" = true) ∧
    (∃ patterns rest, fieldMappings = ("name", patterns) :: rest ∧ "name" ∈ patterns) ∧
    (∀ e ∈ fieldMappings, e.1 = "firstName" ∨ e.1 = "lastName" → HasMatch host field e.2 →
      identifyField host field = "name") ∧
    identifyField host field ≠ "firstName" ∧ identifyField host field ≠ "lastName" ∧
    (∀ userData : UserData, getValueForField (identifyField host field) userData ∈
      [userData.fullName.getD "", userData.email.getD "", userData.phone.getD "",
       userData.address.getD "", userData.company.getD "", userData.title.getD "",
       userData.website.getD "", ""]) := by
  have hsub : ∀ e ∈ fieldMappings, e.1 = "firstName" ∨ e.1 = "lastName" → HasMatch host field e.2 →
      identifyField host field = "name" := fun e he hk hm =>
    identifyField_name_of_hasMatch host field
      (hasMatch_name_of_sub host field e.2 (name_in_sub_patterns e he hk) hm)
  have hne : ∀ k, k = "firstName" ∨ k = "lastName" → identifyField host field ≠ k := by
    intro k hk hres
    rcases identifyField_key_or_unknown host field with hu | ⟨entry, hmem, hkey, hm⟩
    · rw [hu] at hres
      rcases hk with rfl | rfl <;> exact absurd hres (by decide)
    · have hname := hsub entry hmem (by rw [← hkey, hres]; exact hk) hm
      rw [hname] at hres
      rcases hk with rfl | rfl <;> exact absurd hres (by decide)
  refine ⟨name_in_sub_patterns, ⟨_, _, rfl, by decide⟩, hsub, hne _ (Or.inl rfl),
    hne _ (Or.inr rfl), ?_⟩
  intro userData
  have h1 := hne _ (Or.inl rfl)
  have h2 := hne _ (Or.inr rfl)
  have hkeys : identifyField host field = "unknown" ∨
      identifyField host field ∈ fieldMappings.map Prod.fst := by
    rcases identifyField_key_or_unknown host field with hu | ⟨entry, hmem, hkey, _⟩
    · exact Or.inl hu
    · exact Or.inr (hkey ▸ List.mem_map_of_mem _ hmem)
  rw [fieldMappings_keys] at hkeys
  generalize identifyField host field = r at *
  simp only [List.mem_cons, List.mem_singleton, List.not_mem_nil, or_false] at hkeys
  rcases hkeys with rfl | rfl | rfl | rfl | rfl | rfl | rfl | rfl | rfl | rfl | rfl | rfl | rfl |
    rfl | rfl
  all_goals first
    | exact absurd rfl h1
    | exact absurd rfl h2
    | (cases userData; simp [getValueForField, List.lookup, Option.join])

/-! ## Value resolution -/

theorem split_space_append (first rest : List Char) (h : ' ' ∉ first) :
    (first ++ ' ' :: rest).splitOn ' ' = first :: rest.splitOn ' ' := by
  unfold List.splitOn
  apply List.splitOnP_first
  · intro x hx hxe
    have : x = ' ' := by simpa using hxe
    exact h (this ▸ hx)
  · simp

theorem split_no_space (l : List Char) (h : ' ' ∉ l) : l.splitOn ' ' = [l] := by
  unfold List.splitOn
  apply List.splitOnP_eq_single
  intro x hx hxe
  have : x = ' ' := by simpa using hxe
  exact h (this ▸ hx)

theorem getValueForField_firstName_eq (userData : UserData) (fullName : String)
    (h : userData.fullName = some fullName) :
    getValueForField "firstName" userData = ((split fullName ' ').head?).getD "" := by
  simp [getValueForField, List.lookup, h, Option.join]

theorem getValueForField_lastName_eq (userData : UserData) (fullName : String)
    (h : userData.fullName = some fullName) :
    getValueForField "lastName" userData = join ((split fullName ' ').drop 1) " " := by
  simp [getValueForField, List.lookup, h, Option.join]

/-- C2 (as amended). With `fullName` present, the `firstName` value is the part
of `fullName` before its first space character and the `lastName` value is the
part after that space, unchanged; when `fullName` has no space character the
`firstName` value is all of `fullName` and the `lastName` value is empty. -/
theorem getValueForField_firstName_lastName (userData : UserData) (fullName : String)
    (h : userData.fullName = some fullName) :
    (∀ first rest : String, fullName = first ++ " " ++ rest → ' ' ∉ first.data →
      getValueForField "firstName" userData = first ∧
      getValueForField "lastName" userData = rest) ∧
    (' ' ∉ fullName.data →
      getValueForField "firstName" userData = fullName ∧
      getValueForField "lastName" userData = "") := by
  rw [getValueForField_firstName_eq userData fullName h,
    getValueForField_lastName_eq userData fullName h]
  constructor
  · rintro first rest rfl hfirst
    have hd : (first ++ " " ++ rest).data = first.data ++ ' ' :: rest.data := by
      simp [String.data_append]
    have hs := split_space_append first.data rest.data hfirst
    constructor
    · simp only [split, hd, hs, List.map_cons, List.head?_cons, Option.getD_some]
    · simp only [split, hd, hs, join, List.map_cons, List.drop_succ_cons, List.drop_zero,
        List.map_map]
      have hmap : (List.map (String.data ∘ String.mk) (rest.data.splitOn ' ')) =
          rest.data.splitOn ' ' := by
        simp [Function.comp_def]
      rw [hmap, List.intercalate_splitOn]
  · intro hno
    have hs := split_no_space fullName.data hno
    constructor
    · simp [split, hs]
    · simp [split, hs, join]
      rfl

/-- C2 at the full names `Ada Lovelace` and `Ada`. -/
theorem getValueForField_firstName_lastName_witness :
    getValueForField "firstName" { fullName := some "Ada Lovelace" } = "Ada" ∧
    getValueForField "lastName" { fullName := some "Ada Lovelace" } = "Lovelace" ∧
    getValueForField "lastName" { fullName := some "Ada" } = "" :=
  ⟨((getValueForField_firstName_lastName _ "Ada Lovelace" rfl).1 "Ada" "Lovelace"
      (by decide) (by decide)).1,
   ((getValueForField_firstName_lastName _ "Ada Lovelace" rfl).1 "Ada" "Lovelace"
      (by decide) (by decide)).2,
   ((getValueForField_firstName_lastName _ "Ada" rfl).2 (by decide)).2⟩

/-- C2 (as stated) fails: for the full name `Ada<TAB>Lovelace` the first
whitespace-delimited token is `Ada` and the remaining tokens joined by a space
are `Lovelace`, but the `firstName` value is the whole name and the
`lastName` value is empty. -/
theorem getValueForField_not_whitespace_tokens :
    (whitespaceTokens "Ada\tLovelace").head? = some "Ada" ∧
    join ((whitespaceTokens "Ada\tLovelace").drop 1) " " = "Lovelace" ∧
    getValueForField "firstName" { fullName := some "Ada\tLovelace" } = "Ada\tLovelace" ∧
    getValueForField "lastName" { fullName := some "Ada\tLovelace" } = "" := by
  decide

/-! ## Provider responses -/

theorem openAIValue_text (data choice message : Json) (rest : List Json) (text : String)
    (hc : getProp "choices" data = some (.arr (choice :: rest)))
    (hm : getProp "message" choice = some message)
    (ht : getProp "content" message = some (.str text)) :
    openAIValue data = .ok (if trim text = "SKIP" then none else some (trim text)) := by
  cases data <;> simp [getProp] at hc
  cases choice <;> simp [getProp] at hm
  cases message <;> simp [getProp] at ht
  simp [openAIValue, getProp, hc, optChain, getIndex0, hm, ht, skipOrValue]

theorem anthropicValue_text (data block : Json) (rest : List Json) (text : String)
    (hc : getProp "content" data = some (.arr (block :: rest)))
    (ht : getProp "text" block = some (.str text)) :
    anthropicValue data = .ok (if trim text = "SKIP" then none else some (trim text)) := by
  cases data <;> simp [getProp] at hc
  cases block <;> simp [getProp] at ht
  simp [anthropicValue, getProp, hc, optChain, getIndex0, ht, skipOrValue]

/-- C4 (as amended). When the response body holds a text at
`choices[0].message.content` (OpenAI) or `content[0].text` (Anthropic), the
handler returns absent when that text with the surrounding white space trimmed
is exactly `SKIP`, and otherwise returns the trimmed text. -/
theorem query_skip_or_trimmed (net : Network) (requests : List Request)
    (prompt apiKey text : String) (data : Json) :
    (∀ choice message rest, net requests (openAIRequest prompt apiKey) = .ok data →
      getProp "choices" data = some (.arr (choice :: rest)) →
      getProp "message" choice = some message →
      getProp "content" message = some (.str text) →
      (queryOpenAI net requests prompt apiKey).1 =
        .ok (if trim text = "SKIP" then none else some (trim text))) ∧
    (∀ block rest, net requests (anthropicRequest prompt apiKey) = .ok data →
      getProp "content" data = some (.arr (block :: rest)) →
      getProp "text" block = some (.str text) →
      (queryAnthropic net requests prompt apiKey).1 =
        .ok (if trim text = "SKIP" then none else some (trim text))) := by
  constructor
  · intro choice message rest hnet hc hm ht
    simp only [queryOpenAI]
    rw [hnet]
    exact openAIValue_text data choice message rest text hc hm ht
  · intro block rest hnet hc ht
    simp only [queryAnthropic]
    rw [hnet]
    exact anthropicValue_text data block rest text hc ht

/-- C4 at the texts ` Blue` followed by a line feed, `SKIP` and `skip`. -/
theorem query_skip_or_trimmed_witness :
    (queryOpenAI (replyWith (openAIBody " Blue\n")) [] "p" "k").1 = .ok (some "Blue") ∧
    (queryOpenAI (replyWith (openAIBody "SKIP")) [] "p" "k").1 = .ok none ∧
    (queryAnthropic (replyWith (anthropicBody "skip")) [] "p" "k").1 = .ok (some "skip") :=
  ⟨(query_skip_or_trimmed (replyWith (openAIBody " Blue\n")) [] "p" "k" " Blue\n" _).1
      _ _ _ rfl rfl rfl rfl,
   (query_skip_or_trimmed (replyWith (openAIBody "SKIP")) [] "p" "k" "SKIP" _).1
      _ _ _ rfl rfl rfl rfl,
   (query_skip_or_trimmed (replyWith (anthropicBody "skip")) [] "p" "k" "skip" _).2
      _ _ rfl rfl rfl⟩

/-- C4 (as stated) fails: the text ` SKIP` is not the literal `SKIP`, so the
claim has its trimmed form `SKIP` returned, but both handlers return absent. -/
theorem query_untrimmed_skip_absent :
    " SKIP" ≠ "SKIP" ∧ trim " SKIP" = "SKIP" ∧
    (queryOpenAI (replyWith (openAIBody " SKIP")) [] "p" "k").1 = .ok none ∧
    (queryAnthropic (replyWith (anthropicBody " SKIP")) [] "p" "k").1 = .ok none :=
  ⟨by decide, by decide, rfl, rfl⟩

/-! ## Lemmas on the AI fallback and the fill loop -/

theorem getValueForField_unknown (userData : UserData) :
    getValueForField "unknown" userData = "" := by
  simp [getValueForField, List.lookup, Option.join]

theorem truthy_getD (o : Option String) (h : truthy o = true) :
    o.getD "" ≠ "" ∧ o = some (o.getD "") := by
  cases o with
  | none => simp [truthy] at h
  | some s => simpa [truthy] using h

theorem lookup_eq_none_of_forall_ne {β : Type} (name : String) (table : List (String × β))
    (h : ∀ e ∈ table, e.1 ≠ name) : table.lookup name = none := by
  induction table with
  | nil => rfl
  | cons e rest ih =>
    obtain ⟨k, v⟩ := e
    have hk : (name == k) = false := by
      have := h (k, v) (List.mem_cons_self _ _)
      simpa using fun hh : name = k => this hh.symm
    simp only [List.lookup, hk]
    exact ih (fun e he => h e (List.mem_cons_of_mem _ he))

theorem aiProvidersMember_of_lookup (name : String) (handler : Handler)
    (h : aiProviders.lookup name = some handler) :
    aiProvidersMember name = some (.function handler) := by
  simp [aiProvidersMember, h]

theorem aiProvidersMember_cases (name : String) :
    (name ∈ callableMembers ∧ ∃ handler, aiProvidersMember name = some (.function handler)) ∨
    (name ∉ callableMembers ∧
      (aiProvidersMember name = some .object ∨ aiProvidersMember name = none)) := by
  by_cases hmem : name ∈ callableMembers ++ ["__proto__"]
  · simp only [callableMembers, List.cons_append, List.nil_append, List.mem_cons,
      List.mem_singleton, List.not_mem_nil, or_false] at hmem
    rcases hmem with rfl | rfl | rfl | rfl | rfl | rfl | rfl | rfl | rfl | rfl | rfl | rfl |
      rfl | rfl | rfl
    all_goals first
      | exact Or.inl ⟨by decide, _, rfl⟩
      | exact Or.inr ⟨by decide, Or.inl rfl⟩
  · have hnot : name ∉ callableMembers := fun h => hmem (List.mem_append_left _ h)
    refine Or.inr ⟨hnot, Or.inr ?_⟩
    have h1 : aiProviders.lookup name = none := by
      apply lookup_eq_none_of_forall_ne
      intro e he hname
      apply hmem
      rw [← hname]
      simp only [aiProviders, List.mem_cons, List.mem_singleton, List.not_mem_nil,
        or_false] at he
      rcases he with rfl | rfl | rfl <;> decide
    have h2 : inheritedMembers.lookup name = none := by
      apply lookup_eq_none_of_forall_ne
      intro e he hname
      apply hmem
      rw [← hname]
      simp only [inheritedMembers, List.mem_cons, List.mem_singleton, List.not_mem_nil,
        or_false] at he
      rcases he with rfl | rfl | rfl | rfl | rfl | rfl | rfl | rfl | rfl | rfl | rfl | rfl <;>
        decide
    simp [aiProvidersMember, h1, h2]

theorem getAIValue_state (net : Network) (field : Field) (userData : UserData) (st : FillState) :
    (getAIValue net field userData st).2.filledCount = st.filledCount ∧
    (getAIValue net field userData st).2.filled = st.filled ∧
    (getAIValue net field userData st).2.uncaught = st.uncaught ∧
    (getAIValue net field userData st).2.invoked =
      st.invoked ++
        (if truthy userData.apiKey = true ∧ truthy userData.aiProvider = true ∧
            userData.aiProvider.getD "" ∈ callableMembers then
          [Invocation.mk (userData.aiProvider.getD "") (buildAIPrompt field userData)
            (userData.apiKey.getD "")]
        else []) := by
  unfold getAIValue
  by_cases hk : truthy userData.apiKey = true
  · by_cases hp : truthy userData.aiProvider = true
    · simp only [hk, hp, Bool.not_true, Bool.or_self, Bool.false_eq_true, if_false, true_and]
      rcases aiProvidersMember_cases (userData.aiProvider.getD "") with
        ⟨hin, handler, hl⟩ | ⟨hout, hl | hl⟩
      · rw [hl, if_pos hin]
        simp only
        split <;> simp
      · rw [hl, if_neg hout]
        simp
      · rw [hl, if_neg hout]
        simp
    · simp [hk, hp]
  · simp [hk]

theorem getAIValue_guard (net : Network) (field : Field) (userData : UserData) (st : FillState)
    (h : ¬ (truthy userData.apiKey = true ∧ truthy userData.aiProvider = true ∧
      userData.aiProvider.getD "" ∈ callableMembers)) :
    (getAIValue net field userData st).1 = none ∧
    (getAIValue net field userData st).2.requests = st.requests := by
  unfold getAIValue
  by_cases hk : truthy userData.apiKey = true
  · by_cases hp : truthy userData.aiProvider = true
    · simp only [hk, hp, Bool.not_true, Bool.or_self, Bool.false_eq_true, if_false]
      rcases aiProvidersMember_cases (userData.aiProvider.getD "") with
        ⟨hin, _, _⟩ | ⟨_, hl | hl⟩
      · exact absurd ⟨hk, hp, hin⟩ h
      · rw [hl]; exact ⟨rfl, rfl⟩
      · rw [hl]; exact ⟨rfl, rfl⟩
    · simp [hp]
  · simp [hk]

theorem fillOne_final (host : Host) (field : Field) (step : Option String × FillState) :
    let final : Field × FillState :=
      if truthy step.1 then
        match fillField host field.element (step.1.getD "") with
        | .ok written =>
          ({ field with element := written },
           { step.2 with filledCount := step.2.filledCount + 1,
                         filled := step.2.filled ++ [(field, step.1.getD "")] })
        | .error e => (field, { step.2 with uncaught := step.2.uncaught ++ [e] })
      else (field, step.2)
    final.2.invoked = step.2.invoked ∧ final.2.requests = step.2.requests ∧
    final.2.consoleErrors = step.2.consoleErrors ∧
    (final.2.uncaught = step.2.uncaught ∨ ∃ e, final.2.uncaught = step.2.uncaught ++ [e]) := by
  intro final
  show final.2.invoked = _ ∧ final.2.requests = _ ∧ final.2.consoleErrors = _ ∧ _
  simp only [final]
  split
  · split
    · exact ⟨rfl, rfl, rfl, Or.inl rfl⟩
    · exact ⟨rfl, rfl, rfl, Or.inr ⟨_, rfl⟩⟩
  · exact ⟨rfl, rfl, rfl, Or.inl rfl⟩

theorem fillOne_invoked (host : Host) (net : Network) (userData : UserData) (field : Field)
    (st : FillState) :
    (fillOne host net userData field st).2.invoked =
      st.invoked ++ (aiInvocation host userData field).toList := by
  unfold fillOne
  simp only
  rw [(fillOne_final host field _).1]
  unfold aiInvocation
  by_cases hc : (getValueForField (identifyField host field) userData = "" &&
      identifyField host field = "unknown" && userData.aiEnabled = some true) = true
  · rw [if_pos hc, (getAIValue_state net field userData st).2.2.2]
    simp only [Bool.and_eq_true, decide_eq_true_eq] at hc
    obtain ⟨⟨hv, hu⟩, he⟩ := hc
    by_cases hg : truthy userData.apiKey = true ∧ truthy userData.aiProvider = true ∧
        userData.aiProvider.getD "" ∈ callableMembers
    · rw [if_pos hg, if_pos ⟨hu, hv, he, hg⟩]
      rfl
    · rw [if_neg hg, if_neg (fun hh => hg hh.2.2.2)]
      rfl
  · rw [if_neg hc]
    simp only [Bool.and_eq_true, decide_eq_true_eq] at hc
    rw [if_neg (fun hh => hc ⟨⟨hh.2.1, hh.1⟩, hh.2.2.1⟩)]
    simp

theorem fillOne_requests (host : Host) (net : Network) (userData : UserData) (field : Field)
    (st : FillState) (h : aiInvocation host userData field = none) :
    (fillOne host net userData field st).2.requests = st.requests := by
  unfold fillOne
  simp only
  rw [(fillOne_final host field _).2.1]
  by_cases hc : (getValueForField (identifyField host field) userData = "" &&
      identifyField host field = "unknown" && userData.aiEnabled = some true) = true
  · rw [if_pos hc]
    apply (getAIValue_guard net field userData st _).2
    simp only [Bool.and_eq_true, decide_eq_true_eq] at hc
    obtain ⟨⟨hv, hu⟩, he⟩ := hc
    intro hg
    unfold aiInvocation at h
    rw [if_pos ⟨hu, hv, he, hg⟩] at h
    cases h
  · rw [if_neg hc]

theorem fillOne_uncaught (host : Host) (net : Network) (userData : UserData) (field : Field)
    (st : FillState) :
    (fillOne host net userData field st).2.uncaught = st.uncaught ∨
    ∃ e, (fillOne host net userData field st).2.uncaught = st.uncaught ++ [e] := by
  have hstep : (if (getValueForField (identifyField host field) userData = "" &&
      identifyField host field = "unknown" && userData.aiEnabled = some true) = true then
        getAIValue net field userData st
      else (some (getValueForField (identifyField host field) userData), st)).2.uncaught =
      st.uncaught := by
    split
    · exact (getAIValue_state net field userData st).2.2.1
    · rfl
  unfold fillOne
  simp only
  rcases (fillOne_final host field _).2.2.2 with h | ⟨e, h⟩
  · exact Or.inl (h.trans hstep)
  · exact Or.inr ⟨e, h.trans (by rw [hstep])⟩

theorem append_singleton_ne {α : Type} (l : List α) (e : α) : l ++ [e] ≠ l := by
  intro h
  have := congrArg List.length h
  simp at this

theorem fillFields_run (host : Host) (net : Network) (userData : UserData)
    (fields : List Field) (st : FillState) :
    ∃ done rest, fields = done ++ rest ∧
      (fillFields host net userData fields st).2.invoked =
        st.invoked ++ done.filterMap (aiInvocation host userData) ∧
      ((fillFields host net userData fields st).2.uncaught = st.uncaught → rest = []) ∧
      ((fillFields host net userData fields st).2.uncaught = st.uncaught ∨
        ∃ e, (fillFields host net userData fields st).2.uncaught = st.uncaught ++ [e]) := by
  induction fields generalizing st with
  | nil => exact ⟨[], [], rfl, by simp [fillFields], fun _ => rfl, Or.inl rfl⟩
  | cons field rest ih =>
    by_cases hu : (fillOne host net userData field st).2.uncaught = st.uncaught
    · obtain ⟨done, left, hsplit, hinv, hall, hunc⟩ :=
        ih (fillOne host net userData field st).2
      refine ⟨field :: done, left, by rw [hsplit]; rfl, ?_, ?_, ?_⟩
      · simp only [fillFields, hu, if_true, hinv, fillOne_invoked, List.append_assoc]
        cases hi : aiInvocation host userData field <;> simp [List.filterMap_cons, hi]
      · simp only [fillFields, hu, if_true]
        rw [← hu]
        exact hall
      · simp only [fillFields, hu, if_true]
        rw [← hu]
        exact hunc
    · refine ⟨[field], rest, rfl, ?_, ?_, ?_⟩
      · simp only [fillFields, hu, if_false, fillOne_invoked]
        cases hi : aiInvocation host userData field <;> simp [List.filterMap_cons, hi]
      · simp only [fillFields, hu, if_false]
        exact fun h => h.elim
      · simp only [fillFields, hu, if_false]
        exact Or.inr ((fillOne_uncaught host net userData field st).resolve_left hu)

theorem fillFormsLoop_run (host : Host) (net : Network) (userData : UserData)
    (forms : List FormData) (st : FillState) :
    ∃ done rest, (forms.map (fun formData => formData.fields)).flatten = done ++ rest ∧
      (fillFormsLoop host net userData forms st).2.invoked =
        st.invoked ++ done.filterMap (aiInvocation host userData) ∧
      ((fillFormsLoop host net userData forms st).2.uncaught = st.uncaught → rest = []) ∧
      ((fillFormsLoop host net userData forms st).2.uncaught = st.uncaught ∨
        ∃ e, (fillFormsLoop host net userData forms st).2.uncaught = st.uncaught ++ [e]) := by
  induction forms generalizing st with
  | nil => exact ⟨[], [], rfl, by simp [fillFormsLoop], fun _ => rfl, Or.inl rfl⟩
  | cons formData rest ih =>
    obtain ⟨done1, left1, hsplit1, hinv1, hall1, hunc1⟩ :=
      fillFields_run host net userData formData.fields st
    by_cases hu : (fillFields host net userData formData.fields st).2.uncaught = st.uncaught
    · obtain ⟨done, left, hsplit, hinv, hall, hunc⟩ :=
        ih (fillFields host net userData formData.fields st).2
      have hleft1 := hall1 hu
      subst hleft1
      refine ⟨done1 ++ done, left, ?_, ?_, ?_, ?_⟩
      · simp only [List.map_cons, List.flatten_cons, hsplit, hsplit1, List.append_nil,
          List.append_assoc]
      · simp only [fillFormsLoop, hu, if_true, hinv, hinv1, List.filterMap_append,
          List.append_assoc]
      · simp only [fillFormsLoop, hu, if_true]
        rw [← hu]
        exact hall
      · simp only [fillFormsLoop, hu, if_true]
        rw [← hu]
        exact hunc
    · refine ⟨done1, left1 ++ (rest.map (fun formData => formData.fields)).flatten, ?_, ?_,
        ?_, ?_⟩
      · simp only [List.map_cons, List.flatten_cons, hsplit1, List.append_assoc]
      · simp only [fillFormsLoop, hu, if_false, hinv1]
      · simp only [fillFormsLoop, hu, if_false]
        exact fun h => h.elim
      · simp only [fillFormsLoop, hu, if_false]
        exact Or.inr (hunc1.resolve_left hu)

theorem fillFields_no_calls (host : Host) (net : Network) (userData : UserData)
    (hnone : ∀ field, aiInvocation host userData field = none)
    (fields : List Field) (st : FillState) :
    (fillFields host net userData fields st).2.invoked = st.invoked ∧
    (fillFields host net userData fields st).2.requests = st.requests := by
  induction fields generalizing st with
  | nil => exact ⟨rfl, rfl⟩
  | cons field rest ih =>
    have h1 : (fillOne host net userData field st).2.invoked = st.invoked := by
      rw [fillOne_invoked, hnone]; simp
    have h2 := fillOne_requests host net userData field st (hnone field)
    simp only [fillFields]
    split
    · exact ⟨(ih _).1.trans h1, (ih _).2.trans h2⟩
    · exact ⟨h1, h2⟩

theorem fillFormsLoop_no_calls (host : Host) (net : Network) (userData : UserData)
    (hnone : ∀ field, aiInvocation host userData field = none)
    (forms : List FormData) (st : FillState) :
    (fillFormsLoop host net userData forms st).2.invoked = st.invoked ∧
    (fillFormsLoop host net userData forms st).2.requests = st.requests := by
  induction forms generalizing st with
  | nil => exact ⟨rfl, rfl⟩
  | cons formData rest ih =>
    have h := fillFields_no_calls host net userData hnone formData.fields st
    simp only [fillFormsLoop]
    split
    · exact ⟨(ih _).1.trans h.1, (ih _).2.trans h.2⟩
    · exact h

theorem aiInvocation_disabled (host : Host) (userData : UserData)
    (h : userData.aiEnabled ≠ some true) (field : Field) :
    aiInvocation host userData field = none := by
  unfold aiInvocation
  rw [if_neg (fun hh => h hh.2.2.1)]

theorem fillForms_no_calls (host : Host) (net : Network) (userData : UserData)
    (h : userData.aiEnabled ≠ some true) (document : List (List Element)) :
    (fillForms host net userData document).2.invoked = [] ∧
    (fillForms host net userData document).2.requests = [] := by
  unfold fillForms
  split
  · exact ⟨rfl, rfl⟩
  · exact fillFormsLoop_no_calls host net userData (aiInvocation_disabled host userData h) _ _

/-! ## Calls of the functions of `aiProviders` -/

/-- C3 (as amended). During `fillForms` the function `getAIValue` selects from
`aiProviders` is called for a field the loop reaches exactly when
`identifyField` classified it as `'unknown'`, `getValueForField` returned no
value, `userData.aiEnabled` is true, `userData.apiKey` and
`userData.aiProvider` are set and `aiProviders[aiProvider]` is a function (a
handler openai, anthropic or local, or a function every object inherits); it
is then called once, in every other case nothing is called and no request is
sent, and the calls of a fill are those of the detected fields up to the
field at which an uncaught exception ends the fill. -/
theorem fillForms_invokes_provider_iff (host : Host) (net : Network) (userData : UserData) :
    (∀ field st, (fillOne host net userData field st).2.invoked ≠ st.invoked ↔
      (identifyField host field = "unknown" ∧
       getValueForField (identifyField host field) userData = "" ∧
       userData.aiEnabled = some true ∧ truthy userData.apiKey = true ∧
       truthy userData.aiProvider = true ∧
       ∃ provider ∈ callableMembers, userData.aiProvider = some provider)) ∧
    (∀ provider, provider ∈ callableMembers ↔
      ∃ handler, aiProvidersMember provider = some (.function handler)) ∧
    (∀ field st, (fillOne host net userData field st).2.invoked =
      st.invoked ++ (aiInvocation host userData field).toList) ∧
    (∀ field st, aiInvocation host userData field = none →
      (fillOne host net userData field st).2.invoked = st.invoked ∧
      (fillOne host net userData field st).2.requests = st.requests) ∧
    (∀ document, ∃ done rest, allFields document = done ++ rest ∧
      (fillForms host net userData document).2.invoked =
        done.filterMap (aiInvocation host userData) ∧
      ((fillForms host net userData document).2.uncaught = [] → rest = [])) := by
  refine ⟨?_, ?_, fillOne_invoked host net userData, ?_, ?_⟩
  · intro field st
    rw [fillOne_invoked]
    unfold aiInvocation
    constructor
    · intro hne
      split at hne
      · rename_i hc
        obtain ⟨hu, hv, he, hk, hp, hin⟩ := hc
        exact ⟨hu, hv, he, hk, hp, _, hin, (truthy_getD _ hp).2⟩
      · simp at hne
    · rintro ⟨hu, hv, he, hk, hp, provider, hin, hprov⟩
      rw [if_pos ⟨hu, hv, he, hk, hp, by rw [hprov]; exact hin⟩]
      simp
  · intro provider
    rcases aiProvidersMember_cases provider with ⟨hin, hex⟩ | ⟨hout, hl | hl⟩
    · exact ⟨fun _ => hex, fun _ => hin⟩
    · refine ⟨fun h => absurd h hout, ?_⟩
      rintro ⟨handler, hh⟩
      rw [hl] at hh
      cases hh
    · refine ⟨fun h => absurd h hout, ?_⟩
      rintro ⟨handler, hh⟩
      rw [hl] at hh
      cases hh
  · intro field st hnone
    refine ⟨?_, fillOne_requests host net userData field st hnone⟩
    rw [fillOne_invoked, hnone]
    simp
  · intro document
    unfold fillForms allFields
    cases hd : detectForms document with
    | error e => exact ⟨[], [], rfl, rfl, fun _ => rfl⟩
    | ok forms =>
      obtain ⟨done, rest, hsplit, hinv, hall, _⟩ := fillFormsLoop_run host net userData forms {}
      exact ⟨done, rest, hsplit, by simpa using hinv, hall⟩

/-- C3 at a document with an email input and an unmatched input, AI enabled:
with the provider `openai` one handler call, for the unmatched input; with the
inherited name `toString` one call too, and the field gets its result. -/
theorem fillForms_invokes_provider_iff_witness :
    ((fillForms exampleHost (replyWith (openAIBody "Blue"))
      { aiEnabled := some true, aiProvider := some "openai", apiKey := some "sk-1" }
      [[textInput "email", textInput "q"]]).2.invoked.map (fun i => i.provider)) = ["openai"] ∧
    ((fillForms exampleHost (replyWith (openAIBody "Blue"))
      { aiEnabled := some true, aiProvider := some "toString", apiKey := some "sk-1" }
      [[textInput "email", textInput "q"]]).2.filled.map (fun i => i.2)) =
        ["[object Undefined]"] :=
  ⟨by
    obtain ⟨done, rest, hsplit, hinv, hall⟩ :=
      (fillForms_invokes_provider_iff exampleHost (replyWith (openAIBody "Blue"))
        { aiEnabled := some true, aiProvider := some "openai", apiKey := some "sk-1" }).2.2.2.2
        [[textInput "email", textInput "q"]]
    have hrest := hall (by decide)
    subst hrest
    rw [hinv, ← List.append_nil done, ← hsplit]
    decide,
   by decide⟩

/-- C3 (as stated) fails: with the provider name `gemini` the field is
`'unknown'`, no value is resolved, AI is enabled and both the provider and the
key are set, yet nothing is called and the field is not filled. -/
theorem fillForms_unlisted_provider_not_invoked :
    identifyField exampleHost (fieldOf (textInput "q")) = "unknown" ∧
    getValueForField "unknown"
      { aiEnabled := some true, aiProvider := some "gemini", apiKey := some "sk-1" } = "" ∧
    truthy (some "gemini") = true ∧ truthy (some "sk-1") = true ∧
    allFields [[textInput "q"]] = [fieldOf (textInput "q")] ∧
    (fillForms exampleHost (replyWith (openAIBody "Blue"))
      { aiEnabled := some true, aiProvider := some "gemini", apiKey := some "sk-1" }
      [[textInput "q"]]).2 = {} := by
  decide

/-! ## Failing provider calls -/

/-- C8. When the call of the selected provider handler fails, `getAIValue`
returns absent, having logged the error; the fill loop leaves the field as it
is, does not count it, and goes on with the remaining fields. -/
theorem getAIValue_error_absent (host : Host) (net : Network) (userData : UserData)
    (field : Field) (st : FillState) (provider key error : String)
    (handler : Network → List Request → String → String →
      Except String (Option String) × List Request)
    (hk : userData.apiKey = some key) (hkne : key ≠ "")
    (hp : userData.aiProvider = some provider) (hpne : provider ≠ "")
    (hl : aiProviders.lookup provider = some handler)
    (hfail : (handler net st.requests (buildAIPrompt field userData) key).1 = .error error) :
    (getAIValue net field userData st).1 = none ∧
    (getAIValue net field userData st).2.filledCount = st.filledCount ∧
    (getAIValue net field userData st).2.filled = st.filled ∧
    (getAIValue net field userData st).2.consoleErrors =
      st.consoleErrors ++ ["AI query failed: " ++ error] ∧
    (identifyField host field = "unknown" → userData.aiEnabled = some true →
      fillOne host net userData field st = (field, (getAIValue net field userData st).2) ∧
      ∀ rest, fillFields host net userData (field :: rest) st =
        (field :: (fillFields host net userData rest (getAIValue net field userData st).2).1,
         (fillFields host net userData rest (getAIValue net field userData st).2).2)) := by
  have hval : (getAIValue net field userData st).1 = none ∧
      (getAIValue net field userData st).2.consoleErrors =
        st.consoleErrors ++ ["AI query failed: " ++ error] := by
    unfold getAIValue
    have h1 : truthy userData.apiKey = true := by simp [hk, truthy, hkne]
    have h2 : truthy userData.aiProvider = true := by simp [hp, truthy, hpne]
    simp only [h1, h2, Bool.not_true, Bool.or_self, Bool.false_eq_true, if_false]
    simp only [hk, hp, Option.getD_some, aiProvidersMember_of_lookup provider handler hl]
    rcases hh : handler net st.requests (buildAIPrompt field userData) key with ⟨r, reqs⟩
    rw [hh] at hfail
    simp only at hfail
    subst hfail
    exact ⟨rfl, rfl⟩
  have hst := getAIValue_state net field userData st
  refine ⟨hval.1, hst.1, hst.2.1, hval.2, ?_⟩
  intro hu he
  have hone : fillOne host net userData field st =
      (field, (getAIValue net field userData st).2) := by
    unfold fillOne
    simp only [hu, getValueForField_unknown, he, decide_True, Bool.and_self, if_true, hval.1,
      truthy, Bool.false_eq_true, if_false]
  refine ⟨hone, fun rest => ?_⟩
  simp only [fillFields, hone, hst.2.2.1, if_true]

/-- C8 on a network where every request fails: the unmatched input gets no
value and the email input after it is still filled. -/
theorem getAIValue_error_absent_witness :
    (getAIValue failingNetwork (fieldOf (textInput "q"))
      { email := some "ada@example.org", aiEnabled := some true, aiProvider := some "openai",
        apiKey := some "sk-1" } {}).1 = none ∧
    (fillForms exampleHost failingNetwork
      { email := some "ada@example.org", aiEnabled := some true, aiProvider := some "openai",
        apiKey := some "sk-1" } [[textInput "q", textInput "email"]]).2.filledCount = 1 :=
  ⟨(getAIValue_error_absent exampleHost failingNetwork _ (fieldOf (textInput "q")) {} "openai"
      "sk-1" "TypeError: Failed to fetch" queryOpenAI rfl (by decide) rfl (by decide) rfl rfl).1,
   by decide⟩

/-! ## The triggers -/

/-- C10. A fill triggered from the context menu or the keyboard shortcut calls
no provider handler and sends no request, whatever is stored: the payload
carries the stored `aiToggle` but no `aiEnabled`, which only the payload of
the popup sets. -/
theorem background_fill_never_invokes_ai (host : Host) (net : Network) (storage : Storage)
    (document : List (List Element)) :
    (contextMenuPayload storage).aiEnabled = none ∧
    (commandPayload storage).aiEnabled = none ∧
    (contextMenuPayload storage).aiToggle = storage.aiToggle ∧
    (commandPayload storage).aiToggle = storage.aiToggle ∧
    (fillForms host net (contextMenuPayload storage) document).2.invoked = [] ∧
    (fillForms host net (contextMenuPayload storage) document).2.requests = [] ∧
    (fillForms host net (commandPayload storage) document).2.invoked = [] ∧
    (fillForms host net (commandPayload storage) document).2.requests = [] ∧
    (∀ popup : Popup, (getFormData popup).aiEnabled = some popup.aiToggle) := by
  have h1 : (contextMenuPayload storage).aiEnabled ≠ some true := by
    simp [contextMenuPayload, storageGet]
  have h2 : (commandPayload storage).aiEnabled ≠ some true := by
    simp [commandPayload, storageGet]
  exact ⟨rfl, rfl, rfl, rfl, (fillForms_no_calls host net _ h1 document).1,
    (fillForms_no_calls host net _ h1 document).2, (fillForms_no_calls host net _ h2 document).1,
    (fillForms_no_calls host net _ h2 document).2, fun _ => rfl⟩

/-- C10 at a store with `aiToggle` on: the context menu fill calls no handler,
the popup fill with the same settings calls one. -/
theorem background_fill_never_invokes_ai_witness :
    (fillForms exampleHost (replyWith (openAIBody "Blue"))
      (contextMenuPayload
        { aiToggle := some true, aiEnabled := some true, aiProvider := some "openai",
          apiKey := some "sk-1" })
      [[textInput "q"]]).2.invoked = [] ∧
    (fillForms exampleHost (replyWith (openAIBody "Blue"))
      (getFormData
        { fullName := "", email := "", phone := "", address := "", aiProvider := "openai",
          apiKey := "sk-1", aiToggle := true })
      [[textInput "q"]]).2.invoked.length = 1 :=
  ⟨(background_fill_never_invokes_ai exampleHost (replyWith (openAIBody "Blue"))
      { aiToggle := some true, aiEnabled := some true, aiProvider := some "openai",
        apiKey := some "sk-1" } [[textInput "q"]]).2.2.2.2.1,
   by decide⟩

/-! ## The fill loop with AI disabled -/

theorem getFieldLabel_ok (input : Element)
    (h : input.id = "" ∨ input.labelFor ≠ .syntaxError) :
    ∃ label, getFieldLabel input = .ok label := by
  unfold getFieldLabel
  simp only
  by_cases hid : input.id = ""
  · simp [hid]
  · have hq := h.resolve_left hid
    rw [if_pos hid]
    cases hl : input.labelFor with
    | found text => exact ⟨_, rfl⟩
    | missing => exact ⟨_, rfl⟩
    | syntaxError => exact absurd hl hq

theorem detectFields_ok (inputs : List Element) (h : ∀ input ∈ inputs, LabelQueryValid input) :
    ∃ fields, detectFields inputs = .ok fields := by
  induction inputs with
  | nil => exact ⟨[], rfl⟩
  | cons input rest ih =>
    obtain ⟨fields, hf⟩ := ih (fun i hi => h i (List.mem_cons_of_mem _ hi))
    by_cases hkeep : input.type ≠ "submit" ∧ input.type ≠ "button" ∧ input.type ≠ "hidden"
    · have hv : input.id = "" ∨ input.labelFor ≠ .syntaxError := by
        rcases h input (List.mem_cons_self _ _) with h1 | h1 | h1 | h1 | h1
        · exact absurd h1 hkeep.1
        · exact absurd h1 hkeep.2.1
        · exact absurd h1 hkeep.2.2
        · exact Or.inl h1
        · exact Or.inr h1
      obtain ⟨label, hlabel⟩ := getFieldLabel_ok input hv
      exact ⟨describe input label :: fields, by simp only [detectFields, if_pos hkeep, hlabel, hf]⟩
    · exact ⟨fields, by simp only [detectFields, if_neg hkeep, hf]⟩

theorem detectFormsFrom_ok (document : List (List Element)) (index : Nat)
    (h : ∀ form ∈ document, ∀ input ∈ form, LabelQueryValid input) :
    ∃ forms, detectFormsFrom index document = .ok forms := by
  induction document generalizing index with
  | nil => exact ⟨[], rfl⟩
  | cons form rest ih =>
    obtain ⟨fields, hf⟩ := detectFields_ok form (h form (List.mem_cons_self _ _))
    obtain ⟨forms, hfs⟩ := ih (index + 1) (fun f hf => h f (List.mem_cons_of_mem _ hf))
    by_cases hlen : fields.length > 0
    · exact ⟨{ fields := fields, index := index } :: forms,
        by simp only [detectFormsFrom, hf, hfs, if_pos hlen]⟩
    · exact ⟨forms, by simp only [detectFormsFrom, hf, hfs, if_neg hlen]⟩

theorem fillField_ok (host : Host) (element : Element) (value : String)
    (h : AcceptsValue element) : ∃ written, fillField host element value = .ok written := by
  unfold fillField
  by_cases hs : element.tagName = "SELECT"
  · exact ⟨_, by rw [if_pos hs]⟩
  · by_cases hc : (element.type = "checkbox" || element.type = "radio") = true
    · exact ⟨_, by rw [if_neg hs, if_pos hc]⟩
    · have hfile : element.type ≠ "file" := by
        rcases h with h | h | h | h
        · exact absurd h hs
        · exact absurd (by simp [h]) hc
        · exact absurd (by simp [h]) hc
        · exact h
      have hf : ¬ ((element.type = "file" && value ≠ "") = true) := by simp [hfile]
      exact ⟨_, by rw [if_neg hs, if_neg hc, if_neg hf]⟩

theorem fillOne_profile (host : Host) (net : Network) (userData : UserData) (field : Field)
    (st : FillState) (h : userData.aiEnabled ≠ some true)
    (hw : getValueForField (identifyField host field) userData ≠ "" →
      AcceptsValue field.element) :
    (fillOne host net userData field st).2 =
      { st with
        filledCount := st.filledCount + ((profileFill host userData field).toList).length,
        filled := st.filled ++ (profileFill host userData field).toList } := by
  unfold fillOne profileFill
  have hc : (getValueForField (identifyField host field) userData = "" &&
      identifyField host field = "unknown" && userData.aiEnabled = some true) = false := by
    simp [h]
  simp only [hc]
  by_cases hv : getValueForField (identifyField host field) userData = ""
  · simp [hv, truthy]
  · obtain ⟨written, hwr⟩ := fillField_ok host field.element
      (getValueForField (identifyField host field) userData) (hw hv)
    simp [hv, truthy, hwr]

theorem fillFields_profile (host : Host) (net : Network) (userData : UserData)
    (h : userData.aiEnabled ≠ some true) (fields : List Field) (st : FillState)
    (hw : ∀ field ∈ fields, getValueForField (identifyField host field) userData ≠ "" →
      AcceptsValue field.element) :
    (fillFields host net userData fields st).2 =
      { st with
        filledCount := st.filledCount + (fields.filterMap (profileFill host userData)).length,
        filled := st.filled ++ fields.filterMap (profileFill host userData) } := by
  induction fields generalizing st with
  | nil => simp [fillFields]
  | cons field rest ih =>
    have h1 := fillOne_profile host net userData field st h (hw field (List.mem_cons_self _ _))
    have hu : (fillOne host net userData field st).2.uncaught = st.uncaught := by rw [h1]
    simp only [fillFields, hu, if_true]
    rw [ih _ (fun f hf => hw f (List.mem_cons_of_mem _ hf)), h1]
    cases hp : profileFill host userData field <;>
      simp [List.filterMap_cons, hp, Nat.add_assoc, Nat.add_comm]

theorem fillFormsLoop_profile (host : Host) (net : Network) (userData : UserData)
    (h : userData.aiEnabled ≠ some true) (forms : List FormData) (st : FillState)
    (hw : ∀ field ∈ (forms.map (fun formData => formData.fields)).flatten,
      getValueForField (identifyField host field) userData ≠ "" → AcceptsValue field.element) :
    (fillFormsLoop host net userData forms st).2 =
      { st with
        filledCount := st.filledCount +
          ((forms.map (fun formData => formData.fields)).flatten.filterMap
            (profileFill host userData)).length,
        filled := st.filled ++
          (forms.map (fun formData => formData.fields)).flatten.filterMap
            (profileFill host userData) } := by
  induction forms generalizing st with
  | nil => simp [fillFormsLoop]
  | cons formData rest ih =>
    have h1 := fillFields_profile host net userData h formData.fields st
      (fun f hf => hw f (by simp only [List.map_cons, List.flatten_cons]
                            exact List.mem_append_left _ hf))
    have hu : (fillFields host net userData formData.fields st).2.uncaught = st.uncaught := by
      rw [h1]
    simp only [fillFormsLoop, hu, if_true]
    rw [ih _ (fun f hf => hw f (by simp only [List.map_cons, List.flatten_cons]
                                   exact List.mem_append_right _ hf)), h1]
    simp [List.filterMap_append, Nat.add_assoc]

theorem profileFill_length (host : Host) (userData : UserData) (fields : List Field) :
    (fields.filterMap (profileFill host userData)).length =
      (fields.filter (fun field =>
        getValueForField (identifyField host field) userData ≠ "")).length := by
  induction fields with
  | nil => rfl
  | cons f fs ih =>
    by_cases hv : getValueForField (identifyField host f) userData = ""
    · simp [List.filterMap_cons, List.filter_cons, profileFill, hv] at ih ⊢
      exact ih
    · simp [List.filterMap_cons, List.filter_cons, profileFill, hv] at ih ⊢
      exact ih

/-- C5 (as amended). With AI disabled, when the scan raises no exception and
no file control has a type that resolves to a value, `fillForms` fills exactly
the detected fields whose classified type resolves to a non-empty profile
value, in document order and with that value, leaves the other fields as they
are, calls no provider, raises nothing and returns the number of fields it
filled. -/
theorem fillForms_profile_only (host : Host) (net : Network) (userData : UserData)
    (document : List (List Element)) (h : userData.aiEnabled ≠ some true)
    (hscan : ∀ form ∈ document, ∀ input ∈ form, LabelQueryValid input)
    (hwrite : ∀ field ∈ allFields document,
      getValueForField (identifyField host field) userData ≠ "" → AcceptsValue field.element) :
    (fillForms host net userData document).2.uncaught = [] ∧
    (fillForms host net userData document).2.filled =
      (allFields document).filterMap (profileFill host userData) ∧
    (fillForms host net userData document).2.filledCount =
      ((allFields document).filter (fun field =>
        getValueForField (identifyField host field) userData ≠ "")).length ∧
    (fillForms host net userData document).2.filledCount =
      (fillForms host net userData document).2.filled.length ∧
    (fillForms host net userData document).2.invoked = [] ∧
    (fillForms host net userData document).2.requests = [] ∧
    fillFormsResponse host net userData document =
      .success ((allFields document).filter (fun field =>
        getValueForField (identifyField host field) userData ≠ "")).length ∧
    (∀ field st, getValueForField (identifyField host field) userData ≠ "" →
      AcceptsValue field.element →
      fillField host field.element (getValueForField (identifyField host field) userData) =
        .ok (fillOne host net userData field st).1.element) ∧
    (∀ field st, getValueForField (identifyField host field) userData = "" →
      (fillOne host net userData field st).1 = field) := by
  have hc : ∀ field, (getValueForField (identifyField host field) userData = "" &&
      identifyField host field = "unknown" && userData.aiEnabled = some true) = false := by
    intro field
    simp [h]
  have hfilled : ∀ field st, getValueForField (identifyField host field) userData ≠ "" →
      AcceptsValue field.element →
      fillField host field.element (getValueForField (identifyField host field) userData) =
        .ok (fillOne host net userData field st).1.element := by
    intro field st hv ha
    obtain ⟨written, hwr⟩ := fillField_ok host field.element
      (getValueForField (identifyField host field) userData) ha
    unfold fillOne
    simp only [hc field]
    simp [hv, truthy, hwr]
  have hskipped : ∀ field st, getValueForField (identifyField host field) userData = "" →
      (fillOne host net userData field st).1 = field := by
    intro field st hv
    unfold fillOne
    simp only [hc field]
    simp [hv, truthy]
  obtain ⟨forms, hforms⟩ := detectFormsFrom_ok document 0 hscan
  have hall : allFields document = (forms.map (fun formData => formData.fields)).flatten := by
    unfold allFields detectForms
    rw [hforms]
  have hst : (fillForms host net userData document).2 =
      { filledCount := ((allFields document).filterMap (profileFill host userData)).length,
        filled := (allFields document).filterMap (profileFill host userData) } := by
    unfold fillForms detectForms
    rw [hforms]
    simp only
    rw [fillFormsLoop_profile host net userData h forms {} (by rw [← hall]; exact hwrite), hall]
    simp
  have hcount := profileFill_length host userData (allFields document)
  refine ⟨by rw [hst], by rw [hst], by rw [hst]; exact hcount, by rw [hst], by rw [hst],
    by rw [hst], ?_, hfilled, hskipped⟩
  unfold fillFormsResponse
  rw [hst]
  simp only
  rw [hcount]

/-- C5 at a document with one text input named `email` and one unmatched text
input, with a profile email: one field is filled and the count is 1. -/
theorem fillForms_profile_only_witness :
    (fillForms exampleHost failingNetwork { email := some "ada@example.org" }
      [[textInput "email", textInput "q"]]).2.filledCount = 1 ∧
    (fillForms exampleHost failingNetwork { email := some "ada@example.org" }
      [[textInput "email", textInput "q"]]).2.filled =
        [(fieldOf (textInput "email"), "ada@example.org")] ∧
    fillFormsResponse exampleHost failingNetwork { email := some "ada@example.org" }
      [[textInput "email", textInput "q"]] = .success 1 ∧
    (fillOne exampleHost failingNetwork { email := some "ada@example.org" }
      (fieldOf (textInput "email")) {}).1.element.value = "ada@example.org" :=
  ⟨(fillForms_profile_only exampleHost failingNetwork { email := some "ada@example.org" }
      [[textInput "email", textInput "q"]] (by decide) (by decide) (by decide)).2.2.1.trans
      (by decide),
   (fillForms_profile_only exampleHost failingNetwork { email := some "ada@example.org" }
      [[textInput "email", textInput "q"]] (by decide) (by decide) (by decide)).2.1.trans
      (by decide),
   (fillForms_profile_only exampleHost failingNetwork { email := some "ada@example.org" }
      [[textInput "email", textInput "q"]] (by decide) (by decide)
      (by decide)).2.2.2.2.2.2.1.trans (by decide),
   by decide⟩

/-- C5 (as stated) fails: in a document with a file input named `filename` and
a text input named `email` both types resolve to a profile value, but the
write to the file input raises `InvalidStateError`: no field is filled and
the fill answers with the failure instead of a count. -/
theorem fillForms_file_input_raises :
    allFields [[inputOf "file" "filename", textInput "email"]] =
      [fieldOf (inputOf "file" "filename"), fieldOf (textInput "email")] ∧
    getValueForField (identifyField exampleHost (fieldOf (inputOf "file" "filename")))
      { fullName := some "Ada", email := some "ada@example.org" } = "Ada" ∧
    getValueForField (identifyField exampleHost (fieldOf (textInput "email")))
      { fullName := some "Ada", email := some "ada@example.org" } = "ada@example.org" ∧
    (fillForms exampleHost failingNetwork
      { fullName := some "Ada", email := some "ada@example.org" }
      [[inputOf "file" "filename", textInput "email"]]).2.filled = [] ∧
    (fillForms exampleHost failingNetwork
      { fullName := some "Ada", email := some "ada@example.org" }
      [[inputOf "file" "filename", textInput "email"]]).2.uncaught = ["InvalidStateError"] ∧
    fillFormsResponse exampleHost failingNetwork
      { fullName := some "Ada", email := some "ada@example.org" }
      [[inputOf "file" "filename", textInput "email"]] = .failure "InvalidStateError" := by
  decide

/-! ## Writing a value into a control -/

theorem optionMatches_iff (host : Host) (target : String) (option : OptionElement) :
    (includes (host.toLowerCase option.textContent) (host.toLowerCase target) ||
      includes (host.toLowerCase option.value) (host.toLowerCase target)) = true ↔
    OptionMatches host target option := by
  simp [includes, OptionMatches, containsIgnoreCase]

theorem selectLoop_first (host : Host) (value current : String) (pre : List OptionElement)
    (option : OptionElement) (post : List OptionElement)
    (hm : OptionMatches host value option) (hpre : ∀ o ∈ pre, ¬ OptionMatches host value o) :
    selectLoop host value (pre ++ option :: post) current = option.value := by
  induction pre with
  | nil =>
    simp only [List.nil_append, selectLoop]
    rw [if_pos ((optionMatches_iff host value option).2 hm)]
  | cons o pre ih =>
    have ho : ¬ ((includes (host.toLowerCase o.textContent) (host.toLowerCase value) ||
        includes (host.toLowerCase o.value) (host.toLowerCase value)) = true) :=
      fun h => hpre o (List.mem_cons_self _ _) ((optionMatches_iff host value o).1 h)
    simp only [List.cons_append, selectLoop]
    rw [if_neg ho]
    exact ih (fun o' ho' => hpre o' (List.mem_cons_of_mem _ ho'))

theorem selectLoop_none (host : Host) (value current : String) (options : List OptionElement)
    (h : ∀ o ∈ options, ¬ OptionMatches host value o) :
    selectLoop host value options current = current := by
  induction options with
  | nil => rfl
  | cons o rest ih =>
    have ho : ¬ ((includes (host.toLowerCase o.textContent) (host.toLowerCase value) ||
        includes (host.toLowerCase o.value) (host.toLowerCase value)) = true) :=
      fun hh => h o (List.mem_cons_self _ _) ((optionMatches_iff host value o).1 hh)
    simp only [selectLoop]
    rw [if_neg ho]
    exact ih (fun o' ho' => h o' (List.mem_cons_of_mem _ ho'))

/-- C6. On a select control `fillField` raises nothing and sets the value of
the control to the value of the first option, in option order, whose text or
value contains the target as a case-insensitive substring, and leaves the
value of the control unchanged when no option matches; nothing else of the
control changes, and the `input` and `change` events are dispatched. This
holds whatever `toLowerCase` does on the texts. -/
theorem fillField_select_first_match (host : Host) (element : Element) (value : String)
    (h : element.tagName = "SELECT") :
    ∃ written, fillField host element value = .ok written ∧
      (∀ pre option post, element.options = pre ++ option :: post →
        OptionMatches host value option → (∀ o ∈ pre, ¬ OptionMatches host value o) →
        written.value = option.value) ∧
      ((∀ o ∈ element.options, ¬ OptionMatches host value o) →
        written.value = element.value) ∧
      written =
        { element with value := written.value,
                       events := element.events ++ ["input", "change"] } := by
  refine ⟨dispatchEvents
    { element with value := selectLoop host value element.options element.value },
    by simp [fillField, h], ?_, ?_, rfl⟩
  · intro pre option post hdec hm hpre
    show selectLoop host value element.options element.value = option.value
    rw [hdec]
    exact selectLoop_first host value _ pre option post hm hpre
  · intro hnone
    exact selectLoop_none host value _ _ hnone

/-- C6 at the single option `US` / `United States`: the target
`united states` selects it, the target `canada` leaves the control as it is;
and at the option `QC` / `QUÉBEC` with the target `québec`. -/
theorem fillField_select_first_match_witness :
    ((fillField exampleHost (selectOf [{ value := "US", textContent := "United States" }] "")
      "united states").toOption.map (fun written => written.value)) = some "US" ∧
    ((fillField exampleHost (selectOf [{ value := "US", textContent := "United States" }] "")
      "canada").toOption.map (fun written => written.value)) = some "" ∧
    ((fillField accentHost (selectOf [{ value := "QC", textContent := "QUÉBEC" }] "")
      "québec").toOption.map (fun written => written.value)) = some "QC" := by
  refine ⟨?_, ?_, ?_⟩
  · obtain ⟨written, hw, hfirst, _, _⟩ := fillField_select_first_match exampleHost
      (selectOf [{ value := "US", textContent := "United States" }] "") "united states" rfl
    rw [hw]
    exact congrArg some (hfirst [] { value := "US", textContent := "United States" } [] rfl
      (by decide) (by decide))
  · obtain ⟨written, hw, _, hnone, _⟩ := fillField_select_first_match exampleHost
      (selectOf [{ value := "US", textContent := "United States" }] "") "canada" rfl
    rw [hw]
    exact congrArg some (hnone (by decide))
  · obtain ⟨written, hw, hfirst, _, _⟩ := fillField_select_first_match accentHost
      (selectOf [{ value := "QC", textContent := "QUÉBEC" }] "") "québec" rfl
    rw [hw]
    exact congrArg some (hfirst [] { value := "QC", textContent := "QUÉBEC" } [] rfl
      (by decide) (by decide))

/-- C7. On a checkbox or radio control `fillField` raises nothing and sets
`checked` to true exactly when the lower-cased value is one of `true`, `yes`,
`1`, `on`, and to false otherwise; the value of the control is not changed. -/
theorem fillField_checkbox_tokens (host : Host) (element : Element) (value : String)
    (hs : element.tagName ≠ "SELECT")
    (ht : element.type = "checkbox" ∨ element.type = "radio") :
    ∃ written, fillField host element value = .ok written ∧
      (written.checked = true ↔ host.toLowerCase value ∈ ["true", "yes", "1", "on"]) ∧
      (written.checked = false ↔ host.toLowerCase value ∉ ["true", "yes", "1", "on"]) ∧
      written.value = element.value := by
  refine ⟨dispatchEvents
    { element with checked := ["true", "yes", "1", "on"].contains (host.toLowerCase value) },
    ?_, ?_, ?_, rfl⟩
  · rcases ht with ht | ht <;> simp [fillField, hs, ht]
  · show ["true", "yes", "1", "on"].contains (host.toLowerCase value) = true ↔ _
    simp
  · show ["true", "yes", "1", "on"].contains (host.toLowerCase value) = false ↔ _
    simp

/-- C7 at the values `Yes`, `no`, `maybe` and, on a radio control, `ON`. -/
theorem fillField_checkbox_tokens_witness :
    ((fillField exampleHost checkbox "Yes").toOption.map (fun written => written.checked)) =
      some true ∧
    ((fillField exampleHost checkbox "no").toOption.map (fun written => written.checked)) =
      some false ∧
    ((fillField exampleHost checkbox "maybe").toOption.map (fun written => written.checked)) =
      some false ∧
    ((fillField exampleHost { checkbox with type := "radio" } "ON").toOption.map
      (fun written => written.checked)) = some true := by
  refine ⟨?_, ?_, ?_, ?_⟩
  · obtain ⟨written, hw, ht, _, _⟩ :=
      fillField_checkbox_tokens exampleHost checkbox "Yes" (by decide) (Or.inl rfl)
    rw [hw]
    exact congrArg some (ht.2 (by decide))
  · obtain ⟨written, hw, _, hf, _⟩ :=
      fillField_checkbox_tokens exampleHost checkbox "no" (by decide) (Or.inl rfl)
    rw [hw]
    exact congrArg some (hf.2 (by decide))
  · obtain ⟨written, hw, _, hf, _⟩ :=
      fillField_checkbox_tokens exampleHost checkbox "maybe" (by decide) (Or.inl rfl)
    rw [hw]
    exact congrArg some (hf.2 (by decide))
  · obtain ⟨written, hw, ht, _, _⟩ :=
      fillField_checkbox_tokens exampleHost { checkbox with type := "radio" } "ON" (by decide)
        (Or.inr rfl)
    rw [hw]
    exact congrArg some (ht.2 (by decide))

end SmartFormFiller
